import Mathlib

/-!
Verification development for the XLS NoC simulator core
(xls/noc/simulation/sim_objects.h).

The data model below is translated from the structures declared in
sim_objects.h.  The method bodies of the simulation objects live in
sim_objects.cc, which is not part of this tree; wherever a body is needed
it is modelled from the specification (each such definition carries a
doc comment starting with "Modelled from the spec:").  C++ int64 values
are modelled as Lean Int (cycles may be -1); container indices are Nat.
-/

namespace XlsNoc

/-- Represents a phit being sent from a source to a sink (forward).
Mirrors struct DataPhit of sim_objects.h. -/
structure DataPhit where
  valid : Bool
  destination_index : Int
  vc : Int
  data : Int
deriving DecidableEq, Repr

instance : Inhabited DataPhit := ⟨⟨false, 0, 0, 0⟩⟩

/-- Invalid phit used as the filler value on channels that carry no
payload for a cycle (valid equals false; consumers must ignore it). -/
def invalidPhit : DataPhit := ⟨false, 0, 0, 0⟩

/-- Associates a phit with a time (cycle). Mirrors struct TimedDataPhit. -/
structure TimedDataPhit where
  cycle : Int
  phit : DataPhit
deriving DecidableEq, Repr

instance : Inhabited TimedDataPhit := ⟨⟨0, invalidPhit⟩⟩

/-- Represents a phit being used for metadata (i.e. credits).
Mirrors struct MetadataPhit. -/
structure MetadataPhit where
  valid : Bool
  data : Int
deriving DecidableEq, Repr

instance : Inhabited MetadataPhit := ⟨⟨false, 0⟩⟩

/-- Invalid metadata phit (valid equals false). -/
def invalidMetadataPhit : MetadataPhit := ⟨false, 0⟩

/-- Associates a metadata phit with a time (cycle).
Mirrors struct TimedMetadataPhit. -/
structure TimedMetadataPhit where
  cycle : Int
  phit : MetadataPhit
deriving DecidableEq, Repr

instance : Inhabited TimedMetadataPhit := ⟨⟨0, invalidMetadataPhit⟩⟩

/-- Used to store the state of phits in-flight for a network; associated
with a ConnectionId connecting two ports.  Mirrors struct
SimConnectionState: one forward (payload) channel and one reverse
(credit) channel per virtual channel.  ConnectionId is opaque in the
source (defined in common.h, not in this tree) and is modelled as Nat. -/
structure SimConnectionState where
  id : Nat
  forward_channels : TimedDataPhit
  reverse_channels : List TimedMetadataPhit
deriving DecidableEq, Repr

instance : Inhabited SimConnectionState :=
  ⟨⟨0, default, []⟩⟩

/-- Used to store the valid credit available at a certain time.
Mirrors struct CreditState. -/
structure CreditState where
  cycle : Int
  credit : Int
deriving DecidableEq, Repr

instance : Inhabited CreditState := ⟨⟨0, 0⟩⟩

/-- Represents a fifo/buffer used to store phits (struct DataFlitQueue).
The queue front is the list head. -/
structure DataFlitQueue where
  queue : List DataPhit
  max_queue_size : Int
deriving DecidableEq, Repr

instance : Inhabited DataFlitQueue := ⟨⟨[], 0⟩⟩

/-- Convergence bookkeeping shared by all simulator objects
(the data members of class SimNetworkComponentBase). -/
structure SimNetworkComponentBase where
  forward_propagated_cycle_ : Int
  reverse_propagated_cycle_ : Int
deriving DecidableEq, Repr

/- List helpers used to mirror indexed access into std::vector. -/

/-- Write position i of a list, leaving the list unchanged when i is out
of range (models indexed assignment into an already-sized vector). -/
def setIdx {α : Type} (xs : List α) (i : Nat) (a : α) : List α :=
  xs.set i a

/-- Apply f at position i of a list (models in-place update of one
vector element). -/
def modifyIdx {α : Type} (xs : List α) (i : Nat) (f : α → α) : List α :=
  match xs, i with
  | [], _ => []
  | x :: rest, 0 => f x :: rest
  | x :: rest, Nat.succ j => x :: modifyIdx rest j f

/-- Apply f at position (i, j) of a nested list (models update of one
element of a vector of vectors). -/
def modifyIdx2 {α : Type} (xs : List (List α)) (i j : Nat) (f : α → α) :
    List (List α) :=
  modifyIdx xs i (fun row => modifyIdx row j f)

/-- Read position (i, j) of a nested list with a default. -/
def getIdx2 {α : Type} [Inhabited α] (xs : List (List α)) (i j : Nat) : α :=
  (xs.getD i []).getD j default

/-- Lexicographic list of (port, vc) pairs, port-major, used by the
fixed-priority schemes below (lowest index first). -/
def pairsLex (ports vcs : Nat) : List (Nat × Nat) :=
  ((List.range ports).map (fun i => (List.range vcs).map (fun v => (i, v)))).flatten

end XlsNoc

namespace XlsNoc

/-!
Per-tick convergence protocol of SimNetworkComponentBase.

Modelled from the spec: the body of SimNetworkComponentBase::Tick is in
sim_objects.cc (absent from this tree).  Per the spec, Tick attempts
forward propagation if not already done for the current cycle, then
reverse propagation if not already done, and returns true only when both
have completed for the current cycle.  The component-specific TryForward
and TryReverse procedures are passed as functions over the component
payload sigma; they may read the base markers but only Tick writes them.
-/

/-- Modelled from the spec: per-cycle convergence dispatch of
SimNetworkComponentBase::Tick (body in the absent sim_objects.cc).
Runs tryF when forward propagation has not yet converged for cycle cyc,
then tryR when reverse propagation has not, recording convergence in the
corresponding marker; returns the updated base, payload, connection
store, and whether the component has converged for cyc. -/
def SimNetworkComponentBase.tick {σ : Type}
    (tryF tryR : SimNetworkComponentBase → σ → List SimConnectionState → Int →
      σ × List SimConnectionState × Bool)
    (b : SimNetworkComponentBase) (st : σ) (conns : List SimConnectionState)
    (cyc : Int) :
    SimNetworkComponentBase × σ × List SimConnectionState × Bool :=
  let fwd :=
    if b.forward_propagated_cycle_ = cyc then (b, st, conns)
    else
      match tryF b st conns cyc with
      | (st', conns', ok) =>
        (if ok then { b with forward_propagated_cycle_ := cyc } else b, st', conns')
  match fwd with
  | (b1, st1, conns1) =>
    let rev :=
      if b1.reverse_propagated_cycle_ = cyc then (b1, st1, conns1)
      else
        match tryR b1 st1 conns1 cyc with
        | (st', conns', ok) =>
          (if ok then { b1 with reverse_propagated_cycle_ := cyc } else b1, st', conns')
    match rev with
    | (b2, st2, conns2) =>
      (b2, st2, conns2,
        decide (b2.forward_propagated_cycle_ = cyc) &&
        decide (b2.reverse_propagated_cycle_ = cyc))

end XlsNoc

namespace XlsNoc

/-!
Connection channel writes and the link, source, and sink components.
-/

/-- Modelled from the spec: the status-returning core of a forward-channel
write.  Producing a second, different forward-channel value for an
already-filled cycle is a fatal protocol error, never a silent overwrite
(the check itself is not visible in sim_objects.h, whose method bodies
are in the absent sim_objects.cc; the spec's error-handling design calls
for the protocol violation to fail loudly). -/
def writeForwardChecked (c : SimConnectionState) (t : TimedDataPhit) :
    Except String SimConnectionState :=
  if c.forward_channels.cycle = t.cycle ∧ c.forward_channels.phit ≠ t.phit then
    .error "protocol violation: forward channel already written for this cycle"
  else
    .ok { c with forward_channels := t }

/-- Modelled from the spec: the status-returning core of a reverse-channel
write; as for the forward channel, a second, different value for an
already-filled cycle is a fatal protocol error, never a silent
overwrite. -/
def writeReverseChecked (c : SimConnectionState) (vc : Nat)
    (t : TimedMetadataPhit) : Except String SimConnectionState :=
  if (c.reverse_channels.getD vc default).cycle = t.cycle ∧
      (c.reverse_channels.getD vc default).phit ≠ t.phit then
    .error "protocol violation: reverse channel already written for this cycle"
  else
    .ok { c with reverse_channels := setIdx c.reverse_channels vc t }

/-- Write the forward channel of the connection at index idx through the
protocol check (models assignment to SimConnectionState::forward_channels
guarded by the write-once check; on a violation the concrete simulator
aborts, which the total model renders by leaving the committed value in
place - a violation is never a silent overwrite). -/
def writeForward (conns : List SimConnectionState) (idx : Nat)
    (t : TimedDataPhit) : List SimConnectionState :=
  modifyIdx conns idx (fun c =>
    if c.forward_channels.cycle = t.cycle ∧ c.forward_channels.phit ≠ t.phit
    then c
    else { c with forward_channels := t })

/-- Write reverse channel vc of the connection at index idx through the
protocol check (models assignment to
SimConnectionState::reverse_channels[vc] guarded by the write-once
check, rendered as for writeForward). -/
def writeReverse (conns : List SimConnectionState) (idx vc : Nat)
    (t : TimedMetadataPhit) : List SimConnectionState :=
  modifyIdx conns idx (fun c =>
    if (c.reverse_channels.getD vc default).cycle = t.cycle ∧
        (c.reverse_channels.getD vc default).phit ≠ t.phit
    then c
    else { c with reverse_channels := setIdx c.reverse_channels vc t })

/-- A pair of pipeline stages connecting two ports/network components
(class SimLink of sim_objects.h, data members only; the convergence
markers of the base class are kept separately in SimComponent). -/
structure SimLink where
  forward_pipeline_stages_ : Nat
  reverse_pipeline_stages_ : Nat
  phit_width_ : Int
  src_connection_index_ : Nat
  sink_connection_index_ : Nat
  forward_data_stages_ : List DataPhit
  reverse_credit_stages_ : List (List MetadataPhit)
deriving DecidableEq, Repr

/-- Modelled from the spec: one cycle of the link's forward pipeline
(core of SimLink::TryForwardPropagation, body in the absent
sim_objects.cc).  The incoming phit is pushed at the back; when the
pipeline holds more than the configured stage count the front phit (the
one that entered stages cycles ago) is emitted, otherwise an invalid
phit is emitted while the pipeline fills. -/
def linkPipelineStep (stages : Nat) (q : List DataPhit) (x : DataPhit) :
    List DataPhit × DataPhit :=
  let q1 := q ++ [x]
  if stages < q1.length then (q1.tail, q1.headD invalidPhit)
  else (q1, invalidPhit)

/-- Modelled from the spec: one cycle of the link's reverse (credit)
pipeline for a single virtual channel, symmetric to linkPipelineStep. -/
def linkCreditPipelineStep (stages : Nat) (q : List MetadataPhit)
    (x : MetadataPhit) : List MetadataPhit × MetadataPhit :=
  let q1 := q ++ [x]
  if stages < q1.length then (q1.tail, q1.headD invalidMetadataPhit)
  else (q1, invalidMetadataPhit)

/-- Modelled from the spec: SimLink::TryForwardPropagation (body in the
absent sim_objects.cc).  Ready when the upstream connection has a data
phit for the current cycle; then shifts the pipeline and writes the
downstream connection's forward channel for the current cycle. -/
def SimLink.tryForwardPropagation (l : SimLink)
    (conns : List SimConnectionState) (cyc : Int) :
    SimLink × List SimConnectionState × Bool :=
  let src := conns.getD l.src_connection_index_ default
  if src.forward_channels.cycle = cyc then
    match linkPipelineStep l.forward_pipeline_stages_ l.forward_data_stages_
        src.forward_channels.phit with
    | (q', out) =>
      ({ l with forward_data_stages_ := q' },
       writeForward conns l.sink_connection_index_ ⟨cyc, out⟩, true)
  else (l, conns, false)

/-- Modelled from the spec: SimLink::TryReversePropagation (body in the
absent sim_objects.cc).  Ready when every virtual channel of the
downstream connection has a metadata phit for the current cycle; then
shifts each credit pipeline independently and writes the upstream
connection's reverse channels for the current cycle. -/
def SimLink.tryReversePropagation (l : SimLink)
    (conns : List SimConnectionState) (cyc : Int) :
    SimLink × List SimConnectionState × Bool :=
  let sinkc := conns.getD l.sink_connection_index_ default
  let n := l.reverse_credit_stages_.length
  if (List.range n).all
      (fun v => decide ((sinkc.reverse_channels.getD v default).cycle = cyc)) then
    let res := (List.range n).map (fun v =>
      linkCreditPipelineStep l.reverse_pipeline_stages_
        (l.reverse_credit_stages_.getD v [])
        (sinkc.reverse_channels.getD v default).phit)
    let conns' := (List.range n).foldl
      (fun cs v =>
        writeReverse cs l.src_connection_index_ v
          ⟨cyc, (res.getD v ([], invalidMetadataPhit)).2⟩) conns
    ({ l with reverse_credit_stages_ := res.map Prod.fst }, conns', true)
  else (l, conns, false)

/-- Source - injects traffic into the network (class
SimNetworkInterfaceSrc of sim_objects.h, data members only). -/
structure SimNetworkInterfaceSrc where
  sink_connection_index_ : Nat
  credit_ : List Int
  credit_update_ : List CreditState
  data_to_send_ : List (List TimedDataPhit)
deriving DecidableEq, Repr

/-- Modelled from the spec: SimNetworkInterfaceSrc::SendPhitAtTime (body
in the absent sim_objects.cc).  Registers a phit to be sent at a
specific time by appending it to the per-virtual-channel send queue;
fails for a virtual channel the source was not sized for. -/
def SimNetworkInterfaceSrc.SendPhitAtTime (s : SimNetworkInterfaceSrc)
    (phit : TimedDataPhit) : Except String SimNetworkInterfaceSrc :=
  let vc := phit.phit.vc
  if 0 ≤ vc ∧ vc.toNat < s.data_to_send_.length then
    .ok { s with
      data_to_send_ := modifyIdx s.data_to_send_ vc.toNat (fun q => q ++ [phit]) }
  else
    .error "SendPhitAtTime: vc out of range"

/-- Modelled from the spec and the credit contract documented in
sim_objects.h: at the start of cycle cyc a component folds the credit
updates received on cycle cyc - 1 into its live credit counts.  The
header states that a component keeps an absolute credit count and
"expects incremental updates from the components downstream", so a
pending update is added to the live count (a one-cycle register
delay). -/
def foldCreditUpdates (credit : List Int) (upd : List CreditState)
    (cyc : Int) : List Int :=
  (List.range credit.length).map (fun v =>
    let cu := upd.getD v default
    let c := credit.getD v 0
    if cu.cycle = cyc - 1 then c + cu.credit else c)

/-- Virtual channel v of a source is eligible to send at cycle cyc once
its head phit is scheduled for the current cycle (or earlier, if it was
held back waiting for credit) and its folded live credit is positive. -/
def SimNetworkInterfaceSrc.eligibleVc (s : SimNetworkInterfaceSrc)
    (credit1 : List Int) (cyc : Int) (v : Nat) : Bool :=
  match (s.data_to_send_.getD v []).head? with
  | some t => decide (t.cycle ≤ cyc) && decide (0 < credit1.getD v 0)
  | none => false

/-- Modelled from the spec: SimNetworkInterfaceSrc::TryForwardPropagation
(body in the absent sim_objects.cc).  First folds the one-cycle-delayed
credit updates, then emits on the single forward channel the head phit
of the lowest-index eligible virtual channel (see eligibleVc),
decrementing that credit; if no virtual channel is eligible an invalid
phit is emitted and every queued phit is held.  A source has no upstream
inputs, so it is always ready. -/
def SimNetworkInterfaceSrc.tryForwardPropagation (s : SimNetworkInterfaceSrc)
    (conns : List SimConnectionState) (cyc : Int) :
    SimNetworkInterfaceSrc × List SimConnectionState × Bool :=
  let credit1 := foldCreditUpdates s.credit_ s.credit_update_ cyc
  match (List.range s.data_to_send_.length).find? (s.eligibleVc credit1 cyc) with
  | some v =>
    let t := (s.data_to_send_.getD v []).headD default
    ({ s with credit_ := modifyIdx credit1 v (fun c => c - 1),
              data_to_send_ := modifyIdx s.data_to_send_ v List.tail },
     writeForward conns s.sink_connection_index_ ⟨cyc, t.phit⟩, true)
  | none =>
    ({ s with credit_ := credit1 },
     writeForward conns s.sink_connection_index_ ⟨cyc, invalidPhit⟩, true)

/-- Modelled from the spec: SimNetworkInterfaceSrc::TryReversePropagation
(body in the absent sim_objects.cc).  Ready when every virtual channel
of the downstream connection has a metadata phit for the current cycle;
a valid metadata phit is registered as a CreditState stamped with the
current cycle, to be folded into the live count at the start of the next
cycle.  The live credit counts are not touched here. -/
def SimNetworkInterfaceSrc.tryReversePropagation (s : SimNetworkInterfaceSrc)
    (conns : List SimConnectionState) (cyc : Int) :
    SimNetworkInterfaceSrc × List SimConnectionState × Bool :=
  let conn := conns.getD s.sink_connection_index_ default
  let n := s.credit_update_.length
  if (List.range n).all
      (fun v => decide ((conn.reverse_channels.getD v default).cycle = cyc)) then
    let upd := (List.range n).map (fun v =>
      let t := conn.reverse_channels.getD v default
      if t.phit.valid then ({ cycle := cyc, credit := t.phit.data } : CreditState)
      else s.credit_update_.getD v default)
    ({ s with credit_update_ := upd }, conns, true)
  else (s, conns, false)

/-- Sink - traffic leaves the network via a sink (class
SimNetworkInterfaceSink of sim_objects.h, data members only). -/
structure SimNetworkInterfaceSink where
  src_connection_index_ : Nat
  input_buffers_ : List DataFlitQueue
  received_traffic_ : List TimedDataPhit
deriving DecidableEq, Repr

/-- Returns all traffic received by this sink from the beginning of the
simulation (SimNetworkInterfaceSink::GetReceivedTraffic, inline in
sim_objects.h). -/
def SimNetworkInterfaceSink.GetReceivedTraffic (s : SimNetworkInterfaceSink) :
    List TimedDataPhit :=
  s.received_traffic_

/-- Modelled from the spec: SimNetworkInterfaceSink::TryForwardPropagation
(body in the absent sim_objects.cc).  Ready when the upstream connection
has a phit for the current cycle; a valid phit is pushed into the
matching virtual channel's bounded input buffer and appended to the
received-traffic log.  Pushing onto a full buffer is a protocol
violation per the spec (an assertion); the verified configurations never
reach that case and the model leaves a full buffer unchanged.  The sink
has no reverse logic of its own (no TryReversePropagation override in
sim_objects.h). -/
def SimNetworkInterfaceSink.tryForwardPropagation
    (s : SimNetworkInterfaceSink) (conns : List SimConnectionState)
    (cyc : Int) : SimNetworkInterfaceSink × List SimConnectionState × Bool :=
  let conn := conns.getD s.src_connection_index_ default
  if conn.forward_channels.cycle = cyc then
    let t := conn.forward_channels
    if t.phit.valid then
      ({ s with
         input_buffers_ := modifyIdx s.input_buffers_ t.phit.vc.toNat (fun q =>
           if q.queue.length < q.max_queue_size.toNat then
             { q with queue := q.queue ++ [t.phit] }
           else q),
         received_traffic_ := s.received_traffic_ ++ [t] }, conns, true)
    else (s, conns, true)
  else (s, conns, false)

end XlsNoc

namespace XlsNoc

/-!
Input-buffered, fixed-priority, credit-based, virtual-channel router
(class SimInputBufferedVCRouter of sim_objects.h).  The router consults
the externally supplied routing table (DistributedRoutingTable, declared
in global_routing_table.h which is not in this tree); the table is
modelled as an association-list field mapping (input port, input vc,
destination id) to (output port, output vc).  In the source, a router
resolves its port numbers to connection indices through the simulator's
component_to_connection_index_ arena, which is reserved contiguously at
construction; the model flattens that indirection so that input port i
uses connection index input_connection_index_start_ + i, and likewise
for outputs.
-/

/-- Data members of class SimInputBufferedVCRouter (sim_objects.h). -/
structure SimInputBufferedVCRouter where
  input_connection_index_start_ : Nat
  input_connection_count_ : Nat
  output_connection_index_start_ : Nat
  output_connection_count_ : Nat
  internal_propagated_cycle_ : Int
  input_buffers_ : List (List DataFlitQueue)
  credit_ : List (List Int)
  credit_update_ : List (List CreditState)
  max_vc_ : Nat
  input_credit_to_send_ : List (List Int)
  routing_table : List ((Nat × Nat × Int) × (Nat × Nat))
deriving DecidableEq, Repr

/-- Modelled from the spec:
SimInputBufferedVCRouter::GetDestinationPortIndexAndVcIndex (body in the
absent sim_objects.cc).  Pure routing query: returns the
(output port, output vc) recorded in the externally supplied routing
table for the given (input port, input vc) and destination id, and a
resolution error exactly when the table has no such path.  It takes and
returns no simulator state. -/
def SimInputBufferedVCRouter.GetDestinationPortIndexAndVcIndex
    (r : SimInputBufferedVCRouter) (input : Nat × Nat)
    (destination_index : Int) : Except String (Nat × Nat) :=
  match r.routing_table.lookup (input.1, input.2, destination_index) with
  | some out => .ok out
  | none => .error "no route from input port to destination"

/-- Per-output-port credit refresh: fold each output port's delayed
credit updates (see foldCreditUpdates). -/
def foldCreditUpdates2 (credit : List (List Int))
    (upd : List (List CreditState)) (cyc : Int) : List (List Int) :=
  (List.range credit.length).map (fun p =>
    foldCreditUpdates (credit.getD p []) (upd.getD p []) cyc)

/-- Pop the front phit of input buffer (i, v). -/
def popBuf (bufs : List (List DataFlitQueue)) (i v : Nat) :
    List (List DataFlitQueue) :=
  modifyIdx2 bufs i v (fun q => { q with queue := q.queue.tail })

/-- Modelled from the spec: enqueue the phit presented on each input
port's connection for the current cycle into the input buffer of the
phit's virtual channel (step 3 of SimInputBufferedVCRouter forward
propagation begins by enqueuing arrivals; a later dequeue in the same
cycle is the input-bypass path).  Pushing onto a full bounded buffer is
a protocol violation per the spec; the model leaves a full buffer
unchanged and the verified configurations never reach that case. -/
def SimInputBufferedVCRouter.enqueueStep (conns : List SimConnectionState)
    (racc : SimInputBufferedVCRouter) (i : Nat) : SimInputBufferedVCRouter :=
  let t := (conns.getD (racc.input_connection_index_start_ + i)
      default).forward_channels
  if t.phit.valid then
    { racc with input_buffers_ :=
        modifyIdx2 racc.input_buffers_ i t.phit.vc.toNat (fun q =>
          if q.queue.length < q.max_queue_size.toNat then
            { q with queue := q.queue ++ [t.phit] }
          else q) }
  else racc

/-- Modelled from the spec: the whole enqueue pass is the fold of
enqueueStep over the input ports. -/
def SimInputBufferedVCRouter.enqueueIncoming (r : SimInputBufferedVCRouter)
    (conns : List SimConnectionState) : SimInputBufferedVCRouter :=
  (List.range r.input_connection_count_).foldl
    (SimInputBufferedVCRouter.enqueueStep conns) r

/-- Modelled from the spec: one arbitration step of the router for input
(port, vc) pair iv, at fixed priority.  Examines only the front (oldest)
phit of that input buffer; routes it; if the computed output port is
still unclaimed this cycle and the output virtual channel has credit,
the phit leaves the buffer, the output is claimed with the phit (its vc
field rewritten to the output vc), the output credit is decremented and
the input credit-to-send counter is incremented.  Otherwise the phit
stays buffered.  A routing-table miss is a fatal configuration error per
the spec; the verified tables are total and the model leaves the phit in
place. -/
def SimInputBufferedVCRouter.arbStep (r : SimInputBufferedVCRouter)
    (outs : List (Option DataPhit)) (iv : Nat × Nat) :
    SimInputBufferedVCRouter × List (Option DataPhit) :=
  match (getIdx2 r.input_buffers_ iv.1 iv.2).queue.head? with
  | none => (r, outs)
  | some p =>
    match r.GetDestinationPortIndexAndVcIndex (iv.1, iv.2)
        p.destination_index with
    | .error _ => (r, outs)
    | .ok (op, ov) =>
      if outs.getD op none = none ∧ 0 < getIdx2 r.credit_ op ov then
        ({ r with
            input_buffers_ := popBuf r.input_buffers_ iv.1 iv.2,
            credit_ := modifyIdx2 r.credit_ op ov (fun c => c - 1),
            input_credit_to_send_ :=
              modifyIdx2 r.input_credit_to_send_ iv.1 iv.2 (fun c => c + 1) },
         setIdx outs op (some { p with vc := Int.ofNat ov }))
      else (r, outs)

/-- Modelled from the spec: fixed-priority arbitration pass over the
given (input port, input vc) pairs, in list order (the router uses
pairsLex, lowest index first). -/
def SimInputBufferedVCRouter.arbitrate (r : SimInputBufferedVCRouter)
    (outs : List (Option DataPhit)) (pairs : List (Nat × Nat)) :
    SimInputBufferedVCRouter × List (Option DataPhit) :=
  pairs.foldl (fun acc iv => SimInputBufferedVCRouter.arbStep acc.1 acc.2 iv)
    (r, outs)

/-- Modelled from the spec: SimInputBufferedVCRouter::TryForwardPropagation
(body in the absent sim_objects.cc).  Step 1 (internal propagation,
performed once per cycle even when the inputs are not yet ready): fold
the one-cycle-delayed credit updates into the live output credit counts.
Step 2: wait until every input port's connection has presented a phit
for the current cycle.  Step 3: reset the credits-to-send counters,
enqueue arrivals, arbitrate at fixed priority, and write every output
port's forward channel for the current cycle (invalid phit on outputs
that were not claimed). -/
def SimInputBufferedVCRouter.tryForwardPropagation
    (r : SimInputBufferedVCRouter) (conns : List SimConnectionState)
    (cyc : Int) : SimInputBufferedVCRouter × List SimConnectionState × Bool :=
  let r1 :=
    if r.internal_propagated_cycle_ = cyc then r
    else { r with
      credit_ := foldCreditUpdates2 r.credit_ r.credit_update_ cyc,
      internal_propagated_cycle_ := cyc }
  if (List.range r1.input_connection_count_).all (fun i =>
      decide ((conns.getD (r1.input_connection_index_start_ + i)
        default).forward_channels.cycle = cyc)) then
    let r2 := { r1 with input_credit_to_send_ :=
      r1.input_credit_to_send_.map (fun (row : List Int) =>
        row.map (fun _ => (0 : Int))) }
    let r3 := r2.enqueueIncoming conns
    let outs0 : List (Option DataPhit) :=
      (List.range r3.output_connection_count_).map (fun _ => none)
    match r3.arbitrate outs0 (pairsLex r3.input_connection_count_ r3.max_vc_) with
    | (r4, outs) =>
      let conns' := (List.range r4.output_connection_count_).foldl (fun cs p =>
        writeForward cs (r4.output_connection_index_start_ + p)
          ⟨cyc, (outs.getD p none).getD invalidPhit⟩) conns
      (r4, conns', true)
  else (r1, conns, false)

/-- Modelled from the spec: SimInputBufferedVCRouter::TryReversePropagation
(body in the absent sim_objects.cc).  Requires forward propagation to
have completed for the cycle (the credits to send upstream are computed
there) and every output connection's reverse channels to be stamped with
the current cycle.  Then writes, for every input port and vc, a credit
update equal to the number of phits that left that input buffer this
cycle onto the upstream reverse channel, and registers the credit
updates received downstream into credit_update_ for folding at the start
of the next cycle.  The live credit counts are not touched here. -/
def SimInputBufferedVCRouter.tryReversePropagation
    (b : SimNetworkComponentBase) (r : SimInputBufferedVCRouter)
    (conns : List SimConnectionState) (cyc : Int) :
    SimInputBufferedVCRouter × List SimConnectionState × Bool :=
  if b.forward_propagated_cycle_ = cyc then
    if (List.range r.output_connection_count_).all (fun p =>
        (List.range ((conns.getD (r.output_connection_index_start_ + p)
            default).reverse_channels.length)).all (fun v =>
          decide (((conns.getD (r.output_connection_index_start_ + p)
            default).reverse_channels.getD v default).cycle = cyc))) then
      let conns' := (pairsLex r.input_connection_count_ r.max_vc_).foldl
        (fun cs iv =>
          writeReverse cs (r.input_connection_index_start_ + iv.1) iv.2
            ⟨cyc, ⟨true, getIdx2 r.input_credit_to_send_ iv.1 iv.2⟩⟩) conns
      let upd := (List.range r.credit_update_.length).map (fun p =>
        (List.range ((r.credit_update_.getD p []).length)).map (fun v =>
          let t := (conns.getD (r.output_connection_index_start_ + p)
            default).reverse_channels.getD v default
          if t.phit.valid then
            ({ cycle := cyc, credit := t.phit.data } : CreditState)
          else getIdx2 r.credit_update_ p v))
      ({ r with credit_update_ := upd }, conns', true)
    else (r, conns, false)
  else (r, conns, false)

end XlsNoc

namespace XlsNoc

/-!
Component dispatch and the simulator.  The spec's design note models the
closed set of component kinds as a tagged variant dispatched by match;
the simulator's per-kind vectors (links_, network_interface_sources_,
network_interface_sinks_, routers_) are flattened into one component
list, which leaves every per-component behavior unchanged.
-/

/-- Closed variant of the four concrete component kinds. -/
inductive SimComponentKind where
  | link : SimLink → SimComponentKind
  | niSrc : SimNetworkInterfaceSrc → SimComponentKind
  | niSink : SimNetworkInterfaceSink → SimComponentKind
  | router : SimInputBufferedVCRouter → SimComponentKind
deriving DecidableEq, Repr

/-- A simulation component: the base-class convergence markers plus the
kind-specific payload. -/
structure SimComponent where
  base : SimNetworkComponentBase
  kind : SimComponentKind
deriving DecidableEq, Repr

instance : Inhabited SimComponent :=
  ⟨⟨⟨-1, -1⟩, .niSink ⟨0, [], []⟩⟩⟩

/-- Virtual dispatch of TryForwardPropagation over the component kinds
(the sink and source have no unready inputs beyond those their
definitions check; the base-class default returns true). -/
def SimComponentKind.tryForward (_b : SimNetworkComponentBase)
    (k : SimComponentKind) (conns : List SimConnectionState) (cyc : Int) :
    SimComponentKind × List SimConnectionState × Bool :=
  match k with
  | .link l =>
    match l.tryForwardPropagation conns cyc with
    | (l', cs, ok) => (.link l', cs, ok)
  | .niSrc s =>
    match s.tryForwardPropagation conns cyc with
    | (s', cs, ok) => (.niSrc s', cs, ok)
  | .niSink s =>
    match s.tryForwardPropagation conns cyc with
    | (s', cs, ok) => (.niSink s', cs, ok)
  | .router r =>
    match r.tryForwardPropagation conns cyc with
    | (r', cs, ok) => (.router r', cs, ok)

/-- Virtual dispatch of TryReversePropagation over the component kinds.
The sink defines no override, so it uses the base-class default, which
returns true without touching any state. -/
def SimComponentKind.tryReverse (b : SimNetworkComponentBase)
    (k : SimComponentKind) (conns : List SimConnectionState) (cyc : Int) :
    SimComponentKind × List SimConnectionState × Bool :=
  match k with
  | .link l =>
    match l.tryReversePropagation conns cyc with
    | (l', cs, ok) => (.link l', cs, ok)
  | .niSrc s =>
    match s.tryReversePropagation conns cyc with
    | (s', cs, ok) => (.niSrc s', cs, ok)
  | .niSink s => (.niSink s, conns, true)
  | .router r =>
    match SimInputBufferedVCRouter.tryReversePropagation b r conns cyc with
    | (r', cs, ok) => (.router r', cs, ok)

/-- Modelled from the spec: SimNetworkComponentBase::Tick for a concrete
component (see SimNetworkComponentBase.tick). -/
def SimComponent.Tick (c : SimComponent) (conns : List SimConnectionState)
    (cyc : Int) : SimComponent × List SimConnectionState × Bool :=
  match SimNetworkComponentBase.tick SimComponentKind.tryForward
      SimComponentKind.tryReverse c.base c.kind conns cyc with
  | (b', k', cs, ok) => (⟨b', k'⟩, cs, ok)

/-- Main simulator class that drives the simulation and stores simulation
state and objects (class NocSimulator of sim_objects.h; the external
NetworkManager / NocParameters / DistributedRoutingTable services and
the construction pass are out of scope).  ConnectionId keys are
modelled as Nat. -/
structure NocSimulator where
  cycle_ : Int
  connection_index_map_ : List (Nat × Nat)
  connections_ : List SimConnectionState
  components_ : List SimComponent
deriving DecidableEq, Repr

/-- Returns current/in-progress cycle (NocSimulator::GetCurrentCycle,
inline in sim_objects.h). -/
def NocSimulator.GetCurrentCycle (s : NocSimulator) : Int :=
  s.cycle_

/-- Maps a given connection id to its index in the connection store
(NocSimulator::GetConnectionIndex, inline in sim_objects.h).  The body
is a single lookup through absl::flat_hash_map::operator[], whose
semantics default-insert a value-initialized (zero) index for a missing
key and return it; assignment semantics are modelled by cons, so the
newest binding for a key shadows older ones. -/
def NocSimulator.GetConnectionIndex (s : NocSimulator) (id : Nat) :
    NocSimulator × Nat :=
  match s.connection_index_map_.lookup id with
  | some i => (s, i)
  | none =>
    ({ s with connection_index_map_ := (id, 0) :: s.connection_index_map_ }, 0)

/-- Returns a SimConnectionState given an index
(NocSimulator::GetSimConnectionByIndex, inline in sim_objects.h). -/
def NocSimulator.GetSimConnectionByIndex (s : NocSimulator) (index : Nat) :
    SimConnectionState :=
  s.connections_.getD index default

/-- Allocates and returns a new SimConnectionState object
(NocSimulator::NewConnection, inline in sim_objects.h): grows the
connection store by one default-initialized entry and records its index
under the given id; returns the new index (the C++ returns a reference
to the new entry). -/
def NocSimulator.NewConnection (s : NocSimulator) (id : Nat) :
    NocSimulator × Nat :=
  let index := s.connections_.length
  ({ s with
      connections_ := s.connections_ ++ [default],
      connection_index_map_ := (id, index) :: s.connection_index_map_ },
   index)

/-- Modelled from the spec: NocSimulator::Tick (body in the absent
sim_objects.cc): invokes every component's Tick once, threading the
connection store through, and returns whether all components converged
for the current cycle. -/
def NocSimulator.Tick (s : NocSimulator) : NocSimulator × Bool :=
  match s.components_.foldl
      (fun (acc : List SimComponent × List SimConnectionState × Bool) c =>
        match SimComponent.Tick c acc.2.1 s.cycle_ with
        | (c', cs, ok) => (acc.1 ++ [c'], cs, acc.2.2 && ok))
      ([], s.connections_, true) with
  | (comps, conns, all) =>
    ({ s with components_ := comps, connections_ := conns }, all)

/-- Modelled from the spec: the convergence loop of NocSimulator::RunCycle
(body in the absent sim_objects.cc): call Tick up to the given number of
times, stopping as soon as every component has converged; returns
whether convergence was reached. -/
def NocSimulator.tickLoop : Nat → NocSimulator → NocSimulator × Bool
  | 0, s => (s, false)
  | Nat.succ n, s =>
    match s.Tick with
    | (s', true) => (s', true)
    | (s', false) => NocSimulator.tickLoop n s'

/-- Modelled from the spec: NocSimulator::RunCycle (body in the absent
sim_objects.cc).  Repeatedly calls Tick on the same, not-yet-advanced
cycle (the candidate next cycle) until either all components converge or
max_ticks attempts are exhausted.  Exactly on convergence it returns
success with the cycle counter advanced by one; on exhaustion it reports
an error status to the caller and GetCurrentCycle is left unchanged. -/
def NocSimulator.RunCycle (s : NocSimulator) (max_ticks : Nat) :
    NocSimulator × Except String Unit :=
  let work := { s with cycle_ := s.cycle_ + 1 }
  match NocSimulator.tickLoop max_ticks work with
  | (s', true) => (s', .ok ())
  | (s', false) =>
    ({ s' with cycle_ := s.cycle_ },
     .error "RunCycle: simulator unable to converge within max_ticks")

/-- Received-traffic log of the sink stored at position i of the
component list (the test surface of
SimNetworkInterfaceSink::GetReceivedTraffic). -/
def NocSimulator.sinkTrafficAt (s : NocSimulator) (i : Nat) :
    List TimedDataPhit :=
  match (s.components_.getD i default).kind with
  | .niSink snk => snk.GetReceivedTraffic
  | _ => []

end XlsNoc

namespace XlsNoc

/-!
Concrete configuration from the spec's first scenario: one source, one
two-stage link, one sink, one virtual channel, infinite credit (no
reverse credit channel is configured, so the source's initial credit is
never consumed back; this is the no-backpressure configuration).
-/

/-- The injected phit of the scenario: destination 0, vc 0, data 42. -/
def demoPhit : DataPhit := ⟨true, 0, 0, 42⟩

/-- Scenario source before traffic injection: one virtual channel, a
large (never exhausted) credit balance, no credit-update channel. -/
def demoSrc0 : SimNetworkInterfaceSrc := ⟨0, [1000000], [], [[]]⟩

/-- Scenario source after registering the phit for cycle 0 through
SendPhitAtTime. -/
def demoSrc : SimNetworkInterfaceSrc :=
  match demoSrc0.SendPhitAtTime ⟨0, demoPhit⟩ with
  | .ok s => s
  | .error _ => demoSrc0

/-- Scenario link: two forward pipeline stages, upstream connection 0,
downstream connection 1, empty pipelines, no reverse credit channel. -/
def demoLink : SimLink := ⟨2, 0, 0, 0, 1, [], []⟩

/-- Scenario sink: upstream connection 1, one bounded input buffer. -/
def demoSink : SimNetworkInterfaceSink := ⟨1, [⟨[], 100⟩], []⟩

/-- Scenario simulator before the first cycle: two freshly created
connections (stamped -1, invalid) and the three components. -/
def demoSim : NocSimulator :=
  { cycle_ := -1,
    connection_index_map_ := [(0, 0), (1, 1)],
    connections_ :=
      [⟨0, ⟨-1, invalidPhit⟩, []⟩, ⟨1, ⟨-1, invalidPhit⟩, []⟩],
    components_ :=
      [⟨⟨-1, -1⟩, .niSrc demoSrc⟩,
       ⟨⟨-1, -1⟩, .link demoLink⟩,
       ⟨⟨-1, -1⟩, .niSink demoSink⟩] }

/-- Run n cycles with the default tick budget of 9999, stopping with
none as soon as RunCycle reports non-convergence. -/
def runCyclesOk : Nat → NocSimulator → Option NocSimulator
  | 0, s => some s
  | Nat.succ n, s =>
    match s.RunCycle 9999 with
    | (s', .ok _) => runCyclesOk n s'
    | (_, .error _) => none

end XlsNoc

namespace XlsNoc

/-- Iterated forward pipeline of a link: feed the phits of ins, one per
cycle, through linkPipelineStep starting from pipeline contents q, and
collect the per-cycle downstream outputs. -/
def linkOutputs (stages : Nat) : List DataPhit → List DataPhit → List DataPhit
  | _, [] => []
  | q, x :: xs =>
    match linkPipelineStep stages q x with
    | (q', y) => y :: linkOutputs stages q' xs

/-- Input (port, vc) pair iv contends for output port op: its buffer
front holds a phit that the routing table sends to port op. -/
def SimInputBufferedVCRouter.contendsFor (r : SimInputBufferedVCRouter)
    (iv : Nat × Nat) (op : Nat) : Prop :=
  ∃ p ov, (getIdx2 r.input_buffers_ iv.1 iv.2).queue.head? = some p ∧
    r.GetDestinationPortIndexAndVcIndex iv p.destination_index = .ok (op, ov)

/-- Length (as an Int, matching the int64 credit counters) of input
buffer (i, v) of a router. -/
def SimInputBufferedVCRouter.bufLen (r : SimInputBufferedVCRouter)
    (i v : Nat) : Int :=
  ((getIdx2 r.input_buffers_ i v).queue.length : Int)

end XlsNoc

namespace XlsNoc

/-- Concrete contention scenario from the spec: a router with two input
ports (one vc each), one output port with exactly one credit, both input
buffer fronts routed to output port 0; used to witness fixed-priority
arbitration. -/
def demoRouter : SimInputBufferedVCRouter :=
  ⟨0, 2, 2, 1, -1,
   [[⟨[⟨true, 0, 0, 11⟩], 2⟩], [⟨[⟨true, 0, 0, 22⟩], 2⟩]],
   [[1]],
   [[⟨-1, 0⟩]],
   1,
   [[0], [0]],
   [((0, 0, 0), (0, 0)), ((1, 0, 0), (0, 0))]⟩

/-- Concrete connection 0 for the C3 scenario: forward channel and one
reverse channel both already stamped with cycle 5. -/
def c3C0 : SimConnectionState := ⟨0, ⟨5, ⟨true, 0, 0, 7⟩⟩, [⟨5, ⟨true, 3⟩⟩]⟩

/-- Concrete connection 1 for the C3 scenario: forward channel stamped
with cycle 5. -/
def c3C1 : SimConnectionState := ⟨1, ⟨5, ⟨true, 0, 0, 9⟩⟩, []⟩

/-- Source for the C3 scenario (writes connection 0). -/
def c3Src : SimNetworkInterfaceSrc := ⟨0, [1], [], [[]]⟩

/-- One-stage link from connection 0 to connection 1 for the C3 scenario. -/
def c3Link : SimLink := ⟨1, 1, 0, 0, 1, [], []⟩

/-- Sink reading connection 1 for the C3 scenario. -/
def c3Sink : SimNetworkInterfaceSink := ⟨1, [⟨[], 4⟩], []⟩

/-- Markers not yet converged (cycle -1), so every component actually
runs its propagation during the witness Tick. -/
def c3Base0 : SimNetworkComponentBase := ⟨-1, -1⟩

/-- The C3 scenario simulator at cycle 5 with all channels already
stamped with cycle 5 but no component converged yet: the source and the
link both attempt conflicting same-cycle writes, which the checked
write path refuses. -/
def c3Sim0 : NocSimulator :=
  ⟨5, [], [c3C0, c3C1],
   [⟨c3Base0, SimComponentKind.niSrc c3Src⟩,
    ⟨c3Base0, SimComponentKind.link c3Link⟩,
    ⟨c3Base0, SimComponentKind.niSink c3Sink⟩]⟩

end XlsNoc

namespace XlsNoc

/-!
Helper lemmas about the list-access helpers.
-/

theorem modifyIdx_length {α : Type} (xs : List α) (i : Nat) (f : α → α) :
    (modifyIdx xs i f).length = xs.length := by
  induction xs generalizing i with
  | nil => rfl
  | cons x rest ih =>
    cases i with
    | zero => rfl
    | succ j => simpa [modifyIdx] using ih j

theorem modifyIdx_oob {α : Type} (xs : List α) (i : Nat) (f : α → α)
    (h : xs.length ≤ i) : modifyIdx xs i f = xs := by
  induction xs generalizing i with
  | nil => rfl
  | cons x rest ih =>
    cases i with
    | zero => simp at h
    | succ j =>
      simp only [List.length_cons, Nat.succ_le_succ_iff] at h
      simp [modifyIdx, ih j h]

theorem getD_modifyIdx_ne {α : Type} (xs : List α) (i j : Nat) (f : α → α)
    (d : α) (h : i ≠ j) : (modifyIdx xs i f).getD j d = xs.getD j d := by
  induction xs generalizing i j with
  | nil => rfl
  | cons x rest ih =>
    cases i with
    | zero =>
      cases j with
      | zero => exact absurd rfl h
      | succ k => rfl
    | succ i' =>
      cases j with
      | zero => rfl
      | succ k =>
        simpa [modifyIdx] using ih i' k (fun hc => h (by omega))

theorem getD_modifyIdx_self {α : Type} (xs : List α) (i : Nat) (f : α → α)
    (d : α) (h : i < xs.length) :
    (modifyIdx xs i f).getD i d = f (xs.getD i d) := by
  induction xs generalizing i with
  | nil => simp at h
  | cons x rest ih =>
    cases i with
    | zero => rfl
    | succ j =>
      simp only [List.length_cons, Nat.succ_lt_succ_iff] at h
      simpa [modifyIdx] using ih j h

theorem getIdx2_modifyIdx2_ne {α : Type} [Inhabited α]
    (xs : List (List α)) (i j i' j' : Nat) (f : α → α)
    (h : i ≠ i' ∨ j ≠ j') :
    getIdx2 (modifyIdx2 xs i j f) i' j' = getIdx2 xs i' j' := by
  unfold getIdx2 modifyIdx2
  rcases h with h | h
  · rw [getD_modifyIdx_ne xs i i' _ [] h]
  · by_cases hi : i = i'
    · subst hi
      by_cases hlen : i < xs.length
      · rw [getD_modifyIdx_self xs i _ [] hlen, getD_modifyIdx_ne _ j j' f _ h]
      · rw [modifyIdx_oob xs i _ (Nat.le_of_not_lt hlen)]
    · rw [getD_modifyIdx_ne xs i i' _ [] hi]

theorem getIdx2_modifyIdx2_self {α : Type} [Inhabited α]
    (xs : List (List α)) (i j : Nat) (f : α → α)
    (hi : i < xs.length) (hj : j < (xs.getD i []).length) :
    getIdx2 (modifyIdx2 xs i j f) i j = f (getIdx2 xs i j) := by
  unfold getIdx2 modifyIdx2
  rw [getD_modifyIdx_self xs i _ [] hi, getD_modifyIdx_self _ j f _ hj]

theorem getD_setIdx_ne {α : Type} (xs : List α) (i j : Nat) (a d : α)
    (h : i ≠ j) : (setIdx xs i a).getD j d = xs.getD j d := by
  unfold setIdx
  rw [List.getD_eq_getElem?_getD, List.getD_eq_getElem?_getD,
    List.getElem?_set_ne h]

theorem getD_setIdx_self {α : Type} (xs : List α) (i : Nat) (a d : α)
    (h : i < xs.length) : (setIdx xs i a).getD i d = a := by
  unfold setIdx
  rw [List.getD_eq_getElem?_getD, List.getElem?_set_self h]
  rfl

theorem getD_map_range {α : Type} (f : Nat → α) (n v : Nat) (d : α)
    (h : v < n) : ((List.range n).map f).getD v d = f v := by
  rw [List.getD_eq_getElem?_getD, List.getElem?_map, List.getElem?_range h]
  rfl

theorem find?_range_first (p : Nat → Bool) (n v : Nat)
    (h : (List.range n).find? p = some v) :
    p v = true ∧ v < n ∧ ∀ w, w < v → p w = false := by
  have hsorted : ∀ (l : List Nat), l.Sorted (· < ·) →
      ∀ u, l.find? p = some u → p u = true ∧ u ∈ l ∧
        ∀ w ∈ l, w < u → p w = false := by
    intro l hl
    induction l with
    | nil => intro u hu; simp at hu
    | cons a t ih =>
      intro u hu
      rcases List.sorted_cons.mp hl with ⟨ha, ht⟩
      by_cases hpa : p a = true
      · rw [List.find?_cons_of_pos t hpa] at hu
        injection hu with hu
        subst hu
        refine ⟨hpa, List.mem_cons_self a t, ?_⟩
        intro w hw hwu
        rcases List.mem_cons.mp hw with rfl | hw
        · omega
        · exact absurd (ha w hw) (by omega)
      · rw [List.find?_cons_of_neg t hpa] at hu
        rcases ih ht u hu with ⟨h1, h2, h3⟩
        refine ⟨h1, List.mem_cons_of_mem a h2, ?_⟩
        intro w hw hwu
        rcases List.mem_cons.mp hw with rfl | hw
        · exact Bool.eq_false_iff.mpr hpa
        · exact h3 w hw hwu
  rcases hsorted (List.range n) (List.sorted_lt_range n) v h with ⟨h1, h2, h3⟩
  refine ⟨h1, List.mem_range.mp h2, ?_⟩
  intro w hw
  exact h3 w (List.mem_range.mpr (by exact Nat.lt_trans hw (List.mem_range.mp h2))) hw

end XlsNoc

namespace XlsNoc

/-!
Base-class convergence protocol: idempotence of Tick.
-/

theorem tick_of_markers {σ : Type}
    (tryF tryR : SimNetworkComponentBase → σ → List SimConnectionState → Int →
      σ × List SimConnectionState × Bool)
    (b : SimNetworkComponentBase) (st : σ) (conns : List SimConnectionState)
    (cyc : Int) (hf : b.forward_propagated_cycle_ = cyc)
    (hr : b.reverse_propagated_cycle_ = cyc) :
    SimNetworkComponentBase.tick tryF tryR b st conns cyc =
      (b, st, conns, true) := by
  simp [SimNetworkComponentBase.tick, hf, hr]

theorem tick_result_bool {σ : Type}
    (tryF tryR : SimNetworkComponentBase → σ → List SimConnectionState → Int →
      σ × List SimConnectionState × Bool)
    (b : SimNetworkComponentBase) (st : σ) (conns : List SimConnectionState)
    (cyc : Int) :
    (SimNetworkComponentBase.tick tryF tryR b st conns cyc).2.2.2 =
      (decide ((SimNetworkComponentBase.tick tryF tryR b st conns
          cyc).1.forward_propagated_cycle_ = cyc) &&
       decide ((SimNetworkComponentBase.tick tryF tryR b st conns
          cyc).1.reverse_propagated_cycle_ = cyc)) := rfl

/-- Claim C1: once SimNetworkComponentBase::Tick(simulator) has returned
true for the current cycle (both convergence markers equal the current
cycle), every further call to Tick on that component in that cycle —
whatever the connection store holds by then — changes no component or
connection state and returns true again. -/
theorem tick_idempotent_after_convergence {σ : Type}
    (tryF tryR : SimNetworkComponentBase → σ → List SimConnectionState → Int →
      σ × List SimConnectionState × Bool)
    (b : SimNetworkComponentBase) (st : σ) (conns : List SimConnectionState)
    (cyc : Int)
    (h : (SimNetworkComponentBase.tick tryF tryR b st conns cyc).2.2.2 = true) :
    ∀ conns2 : List SimConnectionState,
      SimNetworkComponentBase.tick tryF tryR
          (SimNetworkComponentBase.tick tryF tryR b st conns cyc).1
          (SimNetworkComponentBase.tick tryF tryR b st conns cyc).2.1
          conns2 cyc =
        ((SimNetworkComponentBase.tick tryF tryR b st conns cyc).1,
         (SimNetworkComponentBase.tick tryF tryR b st conns cyc).2.1,
         conns2, true) := by
  intro conns2
  rw [tick_result_bool] at h
  rcases Bool.and_eq_true_iff.mp h with ⟨hf, hr⟩
  exact tick_of_markers tryF tryR _ _ conns2 cyc (of_decide_eq_true hf)
    (of_decide_eq_true hr)

/-- Witness for tick_idempotent_after_convergence: a converged sink
component at cycle 0. -/
theorem tick_idempotent_after_convergence_witness :
    ((SimNetworkComponentBase.tick SimComponentKind.tryForward
        SimComponentKind.tryReverse ⟨0, 0⟩
        (SimComponentKind.niSink ⟨0, [], []⟩) [] 0).2.2.2 = true) ∧
    SimNetworkComponentBase.tick SimComponentKind.tryForward
        SimComponentKind.tryReverse
        (SimNetworkComponentBase.tick SimComponentKind.tryForward
          SimComponentKind.tryReverse ⟨0, 0⟩
          (SimComponentKind.niSink ⟨0, [], []⟩) [] 0).1
        (SimNetworkComponentBase.tick SimComponentKind.tryForward
          SimComponentKind.tryReverse ⟨0, 0⟩
          (SimComponentKind.niSink ⟨0, [], []⟩) [] 0).2.1 [] 0 =
      ((SimNetworkComponentBase.tick SimComponentKind.tryForward
          SimComponentKind.tryReverse ⟨0, 0⟩
          (SimComponentKind.niSink ⟨0, [], []⟩) [] 0).1,
       (SimNetworkComponentBase.tick SimComponentKind.tryForward
          SimComponentKind.tryReverse ⟨0, 0⟩
          (SimComponentKind.niSink ⟨0, [], []⟩) [] 0).2.1, [], true) :=
  ⟨by decide,
   tick_idempotent_after_convergence SimComponentKind.tryForward
     SimComponentKind.tryReverse ⟨0, 0⟩ (SimComponentKind.niSink ⟨0, [], []⟩)
     [] 0 (by decide) []⟩

end XlsNoc

namespace XlsNoc

/-!
Simulator cycle-driving contract.
-/

theorem Tick_preserves_cycle (s : NocSimulator) :
    (s.Tick).1.cycle_ = s.cycle_ := rfl

theorem tickLoop_preserves_cycle :
    ∀ (n : Nat) (s : NocSimulator),
      (NocSimulator.tickLoop n s).1.cycle_ = s.cycle_ := by
  intro n
  induction n with
  | zero => intro s; rfl
  | succ m ih =>
    intro s
    rcases h : s.Tick with ⟨s', conv⟩
    have hc : s'.cycle_ = s.cycle_ := by
      have h2 := Tick_preserves_cycle s
      rw [h] at h2
      exact h2
    cases conv
    · simp only [NocSimulator.tickLoop, h]
      rw [ih s', hc]
    · simp only [NocSimulator.tickLoop, h]
      exact hc

/-- Claim C2: RunCycle(max_ticks) repeatedly calls Tick on the same,
not-yet-advanced cycle until every component has converged or max_ticks
attempts are exhausted; it succeeds exactly when the tick loop
converges, on success GetCurrentCycle has increased by one, and on
exhaustion an error status is returned to the caller with
GetCurrentCycle unchanged.  A Tick never advances the cycle counter
itself. -/
theorem runCycle_convergence_contract (s : NocSimulator) (max_ticks : Nat) :
    ((s.RunCycle max_ticks).2 = Except.ok () ↔
      (NocSimulator.tickLoop max_ticks { s with cycle_ := s.cycle_ + 1 }).2 =
        true) ∧
    ((s.RunCycle max_ticks).2 = Except.ok () →
      (s.RunCycle max_ticks).1.GetCurrentCycle = s.GetCurrentCycle + 1) ∧
    ((∃ e, (s.RunCycle max_ticks).2 = Except.error e) →
      (s.RunCycle max_ticks).1.GetCurrentCycle = s.GetCurrentCycle) ∧
    (∀ (n : Nat) (t : NocSimulator),
      NocSimulator.tickLoop (n + 1) t =
        if (t.Tick).2 = true then t.Tick
        else NocSimulator.tickLoop n (t.Tick).1) ∧
    (∀ t : NocSimulator, (t.Tick).1.GetCurrentCycle = t.GetCurrentCycle) := by
  refine ⟨?_, ?_, ?_, ?_, fun t => Tick_preserves_cycle t⟩
  case _ =>
    rcases h : NocSimulator.tickLoop max_ticks { s with cycle_ := s.cycle_ + 1 }
      with ⟨s', conv⟩
    cases conv <;> simp [NocSimulator.RunCycle, h]
  case _ =>
    rcases h : NocSimulator.tickLoop max_ticks { s with cycle_ := s.cycle_ + 1 }
      with ⟨s', conv⟩
    cases conv
    · simp [NocSimulator.RunCycle, h]
    · intro _
      have hc := tickLoop_preserves_cycle max_ticks
        { s with cycle_ := s.cycle_ + 1 }
      rw [h] at hc
      simp only at hc
      simp [NocSimulator.RunCycle, h, NocSimulator.GetCurrentCycle, hc]
  case _ =>
    rcases h : NocSimulator.tickLoop max_ticks { s with cycle_ := s.cycle_ + 1 }
      with ⟨s', conv⟩
    cases conv
    · intro _
      simp [NocSimulator.RunCycle, h, NocSimulator.GetCurrentCycle]
    · intro he
      rcases he with ⟨e, he⟩
      simp [NocSimulator.RunCycle, h] at he
  case _ =>
    intro n t
    rcases ht : t.Tick with ⟨t', c⟩
    cases c <;> simp [NocSimulator.tickLoop, ht]

/-- Witness for runCycle_convergence_contract: the pipeline scenario
simulator converges in its first cycle and the counter advances from -1
to 0. -/
theorem runCycle_convergence_contract_witness :
    (demoSim.RunCycle 9999).2 = Except.ok () ∧
    (demoSim.RunCycle 9999).1.GetCurrentCycle = demoSim.GetCurrentCycle + 1 :=
  ⟨by rfl, (runCycle_convergence_contract demoSim 9999).2.1 (by rfl)⟩

end XlsNoc

namespace XlsNoc

/-!
Routing query and connection-index lookup contracts.
-/

/-- Claim C9: GetDestinationPortIndexAndVcIndex succeeds with exactly the
routing table's (output port, output vc) entry for the given input and
destination, returns an error status exactly when the externally
supplied table has no such path, and is a deterministic, side-effect-free
function of the table and its arguments (it neither takes nor returns
simulator state beyond the table). -/
theorem getDestination_routing_contract (r : SimInputBufferedVCRouter)
    (input : Nat × Nat) (destination_index : Int) :
    (∀ out : Nat × Nat,
      r.GetDestinationPortIndexAndVcIndex input destination_index =
          Except.ok out ↔
        r.routing_table.lookup (input.1, input.2, destination_index) =
          some out) ∧
    ((∃ e, r.GetDestinationPortIndexAndVcIndex input destination_index =
        Except.error e) ↔
      r.routing_table.lookup (input.1, input.2, destination_index) = none) ∧
    (∀ r2 : SimInputBufferedVCRouter,
      r2.routing_table = r.routing_table →
      r2.GetDestinationPortIndexAndVcIndex input destination_index =
        r.GetDestinationPortIndexAndVcIndex input destination_index) := by
  refine ⟨?_, ?_, ?_⟩
  · intro out
    rcases h : r.routing_table.lookup (input.1, input.2, destination_index)
      with _ | found
    · simp [SimInputBufferedVCRouter.GetDestinationPortIndexAndVcIndex, h]
    · simp [SimInputBufferedVCRouter.GetDestinationPortIndexAndVcIndex, h]
  · rcases h : r.routing_table.lookup (input.1, input.2, destination_index)
      with _ | found
    · simp [SimInputBufferedVCRouter.GetDestinationPortIndexAndVcIndex, h]
    · simp [SimInputBufferedVCRouter.GetDestinationPortIndexAndVcIndex, h]
  · intro r2 h2
    simp [SimInputBufferedVCRouter.GetDestinationPortIndexAndVcIndex, h2]

/-- Witness for getDestination_routing_contract: a one-entry table
resolves its entry and misses any other destination. -/
theorem getDestination_routing_contract_witness :
    (SimInputBufferedVCRouter.GetDestinationPortIndexAndVcIndex
        ⟨0, 0, 0, 0, -1, [], [], [], 0, [], [((0, 0, 5), (1, 2))]⟩ (0, 0) 5 =
      Except.ok (1, 2)) ∧
    (∃ e, SimInputBufferedVCRouter.GetDestinationPortIndexAndVcIndex
        ⟨0, 0, 0, 0, -1, [], [], [], 0, [], [((0, 0, 5), (1, 2))]⟩ (0, 0) 6 =
      Except.error e) :=
  ⟨((getDestination_routing_contract
      ⟨0, 0, 0, 0, -1, [], [], [], 0, [], [((0, 0, 5), (1, 2))]⟩
      (0, 0) 5).1 (1, 2)).mpr (by decide),
   ((getDestination_routing_contract
      ⟨0, 0, 0, 0, -1, [], [], [], 0, [], [((0, 0, 5), (1, 2))]⟩
      (0, 0) 6).2.1).mpr (by decide)⟩

/-- Claim C10: for a ConnectionId never registered via NewConnection,
GetConnectionIndex does not fail or report an error: it default-inserts
the id into the connection index map with value 0 and returns index 0,
silently aliasing the unknown id to whatever SimConnectionState sits at
index 0 of the connection store (absl::flat_hash_map::operator[]
semantics on a value-initialized int64). -/
theorem getConnectionIndex_default_insert (s : NocSimulator) (id : Nat)
    (h : s.connection_index_map_.lookup id = none) :
    ((s.GetConnectionIndex id).2 = 0) ∧
    ((s.GetConnectionIndex id).1.connection_index_map_.lookup id = some 0) ∧
    ((s.GetConnectionIndex id).1.connections_ = s.connections_) ∧
    ((s.GetConnectionIndex id).1.GetSimConnectionByIndex
        ((s.GetConnectionIndex id).2) = s.GetSimConnectionByIndex 0) := by
  refine ⟨?_, ?_, ?_, ?_⟩ <;>
    simp [NocSimulator.GetConnectionIndex, h, List.lookup_cons,
      NocSimulator.GetSimConnectionByIndex]

/-- Witness for getConnectionIndex_default_insert: looking up the
unregistered id 5 in the pipeline scenario simulator yields index 0,
which aliases connection 0. -/
theorem getConnectionIndex_default_insert_witness :
    ((demoSim.GetConnectionIndex 5).2 = 0) ∧
    ((demoSim.GetConnectionIndex 5).1.connection_index_map_.lookup 5 =
      some 0) ∧
    ((demoSim.GetConnectionIndex 5).1.connections_ = demoSim.connections_) ∧
    ((demoSim.GetConnectionIndex 5).1.GetSimConnectionByIndex
        ((demoSim.GetConnectionIndex 5).2) =
      demoSim.GetSimConnectionByIndex 0) :=
  getConnectionIndex_default_insert demoSim 5 (by decide)

end XlsNoc

namespace XlsNoc

/-!
Link pipeline latency.
-/

theorem linkOutputs_closed_form (stages : Nat) :
    ∀ (ins q : List DataPhit), q.length ≤ stages →
      linkOutputs stages q ins =
        (List.replicate (stages - q.length) invalidPhit ++ q ++ ins).take
          ins.length := by
  intro ins
  induction ins with
  | nil => intro q hq; simp [linkOutputs]
  | cons x xs ih =>
    intro q hq
    by_cases hfull : q.length = stages
    · cases q with
      | nil =>
        have h0 : stages = 0 := by simpa using hfull.symm
        subst h0
        simp only [linkOutputs, linkPipelineStep]
        rw [if_pos (by simp)]
        simp only [List.nil_append, List.tail_cons, List.headD_cons]
        rw [ih [] (by simp)]
        simp [List.take_length]
      | cons y q2 =>
        simp only [List.length_cons] at hfull
        simp only [linkOutputs, linkPipelineStep]
        rw [if_pos (by simp; omega)]
        simp only [List.cons_append, List.tail_cons, List.headD_cons]
        rw [ih (q2 ++ [x]) (by simp; omega)]
        have hz : stages - (y :: q2).length = 0 := by simp; omega
        have hz2 : stages - (q2 ++ [x]).length = 0 := by simp; omega
        rw [hz, hz2]
        simp [List.take_succ_cons, List.append_assoc]
    · have hlt : q.length + 1 ≤ stages := by omega
      simp only [linkOutputs, linkPipelineStep]
      rw [if_neg (by simp; omega)]
      rw [ih (q ++ [x]) (by simp; omega)]
      have hrep : stages - q.length = (stages - (q ++ [x]).length) + 1 := by
        simp; omega
      rw [hrep, List.replicate_succ]
      simp [List.take_succ_cons, List.append_assoc]

/-- Claim C6: a link with N forward pipeline stages delivers each phit
presented on its upstream forward channel exactly N cycles later on its
downstream forward channel, no earlier and no later: when ticked every
cycle from an empty pipeline, the downstream outputs are N invalid phits
followed by the input stream (first conjunct gives the per-cycle link
step, second the iterated closed form).  In particular, in the network
of one source, one two-stage link and one sink with one virtual channel
and infinite credit, injecting phit (dest 0, vc 0, data 42) scheduled at
cycle 0 leaves the sink's received-traffic log containing exactly the
one entry (cycle 2, that phit). -/
theorem link_pipeline_latency :
    (∀ (l : SimLink) (conns : List SimConnectionState) (cyc : Int),
      l.tryForwardPropagation conns cyc =
        if (conns.getD l.src_connection_index_ default).forward_channels.cycle
            = cyc then
          ({ l with forward_data_stages_ :=
              (linkPipelineStep l.forward_pipeline_stages_
                l.forward_data_stages_
                (conns.getD l.src_connection_index_
                  default).forward_channels.phit).1 },
           writeForward conns l.sink_connection_index_
             ⟨cyc, (linkPipelineStep l.forward_pipeline_stages_
                l.forward_data_stages_
                (conns.getD l.src_connection_index_
                  default).forward_channels.phit).2⟩, true)
        else (l, conns, false)) ∧
    (∀ (stages : Nat) (ins : List DataPhit),
      linkOutputs stages [] ins =
        (List.replicate stages invalidPhit ++ ins).take ins.length) ∧
    ((runCyclesOk 3 demoSim).map (fun s => s.sinkTrafficAt 2) =
      some [⟨2, demoPhit⟩]) := by
  refine ⟨fun l conns cyc => rfl, fun stages ins => ?_, by decide⟩
  simpa using linkOutputs_closed_form stages ins [] (by simp)

end XlsNoc

namespace XlsNoc

/-!
Credit-update registration and the one-cycle-delayed fold.
-/

/-- Counterexample to claim C4 as stated: a source holding live credit 5
receives a credit update of value 2 on its reverse channel at cycle 0;
at the start of cycle 1 the live count becomes 5 + 2 = 7 — the stored
value is added to the previous count — whereas an absolute-count fold
would have produced 2. -/
theorem credit_fold_counterexample :
    ((((⟨0, [5], [⟨-1, 0⟩], [[]]⟩ :
        SimNetworkInterfaceSrc).tryReversePropagation
          [⟨0, ⟨-1, invalidPhit⟩, [⟨0, ⟨true, 2⟩⟩]⟩] 0).1.tryForwardPropagation
        [] 1).1.credit_ = [7]) ∧
    ¬((((⟨0, [5], [⟨-1, 0⟩], [[]]⟩ :
        SimNetworkInterfaceSrc).tryReversePropagation
          [⟨0, ⟨-1, invalidPhit⟩, [⟨0, ⟨true, 2⟩⟩]⟩] 0).1.tryForwardPropagation
        [] 1).1.credit_ = [2]) := by
  refine ⟨by decide, by decide⟩

/-- Claim C4 (amended): a component receiving a credit update on its
reverse channel at cycle c stores it as a CreditState (cycle, value)
while leaving the live credit count unchanged during cycle c (conjuncts
one, two and five; conjunct four shows an update stamped with the
current cycle is not folded at that cycle); the stored value is folded
into the live count only at the start of cycle c + 1, and the folded
value is an increment added to the previous count — the component keeps
an absolute count and receives incremental updates (sim_objects.h) —
not an absolute replacement (conjunct three). -/
theorem credit_update_delayed_increment :
    (∀ (s : SimNetworkInterfaceSrc) (conns : List SimConnectionState)
        (cyc : Int),
      (s.tryReversePropagation conns cyc).1.credit_ = s.credit_) ∧
    (∀ (s : SimNetworkInterfaceSrc) (conns : List SimConnectionState)
        (cyc : Int) (v : Nat),
      v < s.credit_update_.length →
      ((List.range s.credit_update_.length).all (fun w =>
        decide (((conns.getD s.sink_connection_index_
          default).reverse_channels.getD w default).cycle = cyc)) = true) →
      (((conns.getD s.sink_connection_index_
          default).reverse_channels.getD v default).phit.valid = true) →
      (s.tryReversePropagation conns cyc).1.credit_update_.getD v default =
        ⟨cyc, ((conns.getD s.sink_connection_index_
          default).reverse_channels.getD v default).phit.data⟩) ∧
    (∀ (credit : List Int) (upd : List CreditState) (cyc : Int) (v : Nat),
      v < credit.length → (upd.getD v default).cycle = cyc - 1 →
      (foldCreditUpdates credit upd cyc).getD v 0 =
        credit.getD v 0 + (upd.getD v default).credit) ∧
    (∀ (credit : List Int) (upd : List CreditState) (cyc : Int) (v : Nat),
      v < credit.length → (upd.getD v default).cycle = cyc →
      (foldCreditUpdates credit upd cyc).getD v 0 = credit.getD v 0) ∧
    (∀ (b : SimNetworkComponentBase) (r : SimInputBufferedVCRouter)
        (conns : List SimConnectionState) (cyc : Int),
      (SimInputBufferedVCRouter.tryReversePropagation b r conns
        cyc).1.credit_ = r.credit_) := by
  refine ⟨?_, ?_, ?_, ?_, ?_⟩
  · intro s conns cyc
    simp only [SimNetworkInterfaceSrc.tryReversePropagation]
    split <;> rfl
  · intro s conns cyc v hv hready hvalid
    unfold SimNetworkInterfaceSrc.tryReversePropagation
    rw [if_pos hready]
    simp only
    rw [getD_map_range _ _ _ _ hv, if_pos hvalid]
  · intro credit upd cyc v hv hcy
    unfold foldCreditUpdates
    rw [getD_map_range _ _ _ _ hv]
    show (if (upd.getD v default).cycle = cyc - 1 then
        credit.getD v 0 + (upd.getD v default).credit
      else credit.getD v 0) = _
    rw [if_pos hcy]
  · intro credit upd cyc v hv hcy
    unfold foldCreditUpdates
    rw [getD_map_range _ _ _ _ hv]
    show (if (upd.getD v default).cycle = cyc - 1 then
        credit.getD v 0 + (upd.getD v default).credit
      else credit.getD v 0) = _
    rw [if_neg (by omega)]
  · intro b r conns cyc
    unfold SimInputBufferedVCRouter.tryReversePropagation
    split
    · split <;> rfl
    · rfl

/-- Witness for credit_update_delayed_increment: folding the update
(cycle 0, value 2) into live credit 5 at cycle 1 yields 5 + 2. -/
theorem credit_update_delayed_increment_witness :
    ((0 : Nat) < ([5] : List Int).length) ∧
    ((foldCreditUpdates [5] [⟨0, 2⟩] 1).getD 0 0 =
      ([5] : List Int).getD 0 0 +
        (([⟨0, 2⟩] : List CreditState).getD 0 default).credit) :=
  ⟨by decide,
   credit_update_delayed_increment.2.2.1 [5] [⟨0, 2⟩] 1 0 (by decide)
     (by decide)⟩

end XlsNoc

namespace XlsNoc

/-!
Source forward emission: lowest eligible virtual channel wins the single
forward channel; everything else stays queued.
-/

/-- Counterexample to claim C5 as stated: a source with two virtual
channels, each holding a phit scheduled for cycle 0 and each with one
credit available.  Virtual channel 1 satisfies the claim's trigger
(phit scheduled for the current cycle, sufficient credit for its vc),
yet forward propagation emits vc 0's phit — there is only one forward
channel per connection and per cycle — and vc 1's phit remains queued. -/
theorem source_forward_counterexample :
    (((SimNetworkInterfaceSrc.tryForwardPropagation
        ⟨0, [1, 1], [], [[⟨0, ⟨true, 0, 0, 7⟩⟩], [⟨0, ⟨true, 0, 1, 9⟩⟩]]⟩
        [⟨0, ⟨-1, invalidPhit⟩, []⟩] 0).2.1.getD 0
          default).forward_channels.phit = ⟨true, 0, 0, 7⟩) ∧
    ((⟨true, 0, 0, 7⟩ : DataPhit) ≠ ⟨true, 0, 1, 9⟩) ∧
    ((SimNetworkInterfaceSrc.tryForwardPropagation
        ⟨0, [1, 1], [], [[⟨0, ⟨true, 0, 0, 7⟩⟩], [⟨0, ⟨true, 0, 1, 9⟩⟩]]⟩
        [⟨0, ⟨-1, invalidPhit⟩, []⟩] 0).1.data_to_send_.getD 1 [] =
      [⟨0, ⟨true, 0, 1, 9⟩⟩]) ∧
    ((([[⟨0, ⟨true, 0, 0, 7⟩⟩], [⟨0, ⟨true, 0, 1, 9⟩⟩]] :
        List (List TimedDataPhit)).getD 1 []).headD default =
      ⟨0, ⟨true, 0, 1, 9⟩⟩) ∧
    (0 < (foldCreditUpdates [1, 1] [] 0).getD 1 0) := by
  refine ⟨by decide, by decide, by decide, by decide, by decide⟩

end XlsNoc

namespace XlsNoc

/-- Claim C5 (amended): for every SimNetworkInterfaceSrc and every cycle,
when some virtual channel is eligible — a phit registered via
SendPhitAtTime is scheduled for the current cycle (or earlier, if held
back) and credit for that vc is positive — forward propagation emits the
head phit of the lowest-index eligible vc on the single forward channel
and decrements that vc's in-flight credit, while every other vc's queue
is left untouched; when no vc is eligible an invalid phit is emitted and
every scheduled phit remains queued — no phit is ever dropped. -/
theorem source_forward_lowest_eligible
    (s : SimNetworkInterfaceSrc) (conns : List SimConnectionState)
    (cyc : Int) :
    (∀ v : Nat,
      (List.range s.data_to_send_.length).find?
          (s.eligibleVc (foldCreditUpdates s.credit_ s.credit_update_ cyc) cyc)
        = some v →
      ∃ t : TimedDataPhit,
        (s.data_to_send_.getD v []).head? = some t ∧
        t.cycle ≤ cyc ∧
        0 < (foldCreditUpdates s.credit_ s.credit_update_ cyc).getD v 0 ∧
        (∀ w, w < v →
          s.eligibleVc (foldCreditUpdates s.credit_ s.credit_update_ cyc) cyc w
            = false) ∧
        s.tryForwardPropagation conns cyc =
          ({ s with
              credit_ := modifyIdx
                (foldCreditUpdates s.credit_ s.credit_update_ cyc) v
                (fun c => c - 1),
              data_to_send_ := modifyIdx s.data_to_send_ v List.tail },
           writeForward conns s.sink_connection_index_ ⟨cyc, t.phit⟩, true) ∧
        (∀ w, w ≠ v →
          (s.tryForwardPropagation conns cyc).1.data_to_send_.getD w [] =
            s.data_to_send_.getD w [])) ∧
    ((List.range s.data_to_send_.length).find?
        (s.eligibleVc (foldCreditUpdates s.credit_ s.credit_update_ cyc) cyc)
      = none →
      s.tryForwardPropagation conns cyc =
        ({ s with credit_ := foldCreditUpdates s.credit_ s.credit_update_ cyc },
         writeForward conns s.sink_connection_index_ ⟨cyc, invalidPhit⟩,
         true)) := by
  constructor
  · intro v hfind
    obtain ⟨hp, hvlt, hmin⟩ := find?_range_first _ _ _ hfind
    unfold SimNetworkInterfaceSrc.eligibleVc at hp
    rcases hh : (s.data_to_send_.getD v []).head? with _ | t
    · rw [hh] at hp; simp at hp
    · rw [hh] at hp
      rcases Bool.and_eq_true_iff.mp hp with ⟨h1, h2⟩
      have heq : s.tryForwardPropagation conns cyc =
          ({ s with
              credit_ := modifyIdx
                (foldCreditUpdates s.credit_ s.credit_update_ cyc) v
                (fun c => c - 1),
              data_to_send_ := modifyIdx s.data_to_send_ v List.tail },
           writeForward conns s.sink_connection_index_ ⟨cyc, t.phit⟩, true) := by
        simp only [SimNetworkInterfaceSrc.tryForwardPropagation]
        rw [hfind]
        dsimp only
        have hd : (s.data_to_send_.getD v []).headD default = t := by
          rw [List.headD_eq_head?, hh]
          rfl
        rw [hd]
      refine ⟨t, rfl, of_decide_eq_true h1, of_decide_eq_true h2, hmin, heq,
        ?_⟩
      intro w hw
      rw [heq]
      exact getD_modifyIdx_ne _ v w _ _ (fun hc => hw hc.symm)
  · intro hnone
    simp only [SimNetworkInterfaceSrc.tryForwardPropagation]
    rw [hnone]

end XlsNoc

namespace XlsNoc

/-- Witness for source_forward_lowest_eligible: a source whose only
virtual channel has nothing scheduled emits an invalid phit and changes
no queue. -/
theorem source_forward_lowest_eligible_witness :
    SimNetworkInterfaceSrc.tryForwardPropagation ⟨0, [1], [], [[]]⟩
        [⟨0, ⟨-1, invalidPhit⟩, []⟩] 0 =
      ({ (⟨0, [1], [], [[]]⟩ : SimNetworkInterfaceSrc) with
          credit_ := foldCreditUpdates [1] [] 0 },
       writeForward [⟨0, ⟨-1, invalidPhit⟩, []⟩] 0 ⟨0, invalidPhit⟩, true) :=
  (source_forward_lowest_eligible ⟨0, [1], [], [[]]⟩
    [⟨0, ⟨-1, invalidPhit⟩, []⟩] 0).2 (by decide)

end XlsNoc

namespace XlsNoc

theorem getD_oob {α : Type} (xs : List α) (i : Nat) (d : α)
    (h : xs.length ≤ i) : xs.getD i d = d := by
  rw [List.getD_eq_getElem?_getD, List.getElem?_eq_none h]
  rfl

theorem getIdx2_oob_default {α : Type} [Inhabited α] (xs : List (List α))
    (i j : Nat) (h : ¬(i < xs.length ∧ j < (xs.getD i []).length)) :
    getIdx2 xs i j = default := by
  unfold getIdx2
  by_cases hi : i < xs.length
  · have hj : (xs.getD i []).length ≤ j := by omega
    exact getD_oob _ _ _ hj
  · rw [getD_oob xs i [] (by omega)]
    rfl

theorem length_modifyIdx2 {α : Type} (xs : List (List α)) (i j : Nat)
    (f : α → α) : (modifyIdx2 xs i j f).length = xs.length :=
  modifyIdx_length xs i _

theorem row_length_modifyIdx2 {α : Type} (xs : List (List α)) (i j : Nat)
    (f : α → α) (k : Nat) :
    ((modifyIdx2 xs i j f).getD k []).length = (xs.getD k []).length := by
  unfold modifyIdx2
  by_cases hk : i = k
  · subst hk
    by_cases hi : i < xs.length
    · rw [getD_modifyIdx_self xs i _ [] hi]
      exact modifyIdx_length _ j f
    · rw [modifyIdx_oob xs i _ (by omega)]
  · rw [getD_modifyIdx_ne xs i k _ [] hk]

theorem bufHead_some_inRange (r : SimInputBufferedVCRouter) (i v : Nat)
    (p : DataPhit)
    (h : (getIdx2 r.input_buffers_ i v).queue.head? = some p) :
    i < r.input_buffers_.length ∧
      v < (r.input_buffers_.getD i []).length := by
  by_contra hc
  rw [getIdx2_oob_default r.input_buffers_ i v hc] at h
  simp [Inhabited.default] at h

theorem credit_pos_inRange (r : SimInputBufferedVCRouter) (op ov : Nat)
    (h : 0 < getIdx2 r.credit_ op ov) :
    op < r.credit_.length ∧ ov < (r.credit_.getD op []).length := by
  by_contra hc
  rw [getIdx2_oob_default r.credit_ op ov hc] at h
  simp [Inhabited.default] at h

end XlsNoc

namespace XlsNoc

theorem arbStep_cases (r : SimInputBufferedVCRouter)
    (outs : List (Option DataPhit)) (iv : Nat × Nat) :
    (r.arbStep outs iv = (r, outs)) ∨
    (∃ p op ov,
      (getIdx2 r.input_buffers_ iv.1 iv.2).queue.head? = some p ∧
      r.GetDestinationPortIndexAndVcIndex iv p.destination_index =
        Except.ok (op, ov) ∧
      outs.getD op none = none ∧ 0 < getIdx2 r.credit_ op ov ∧
      r.arbStep outs iv =
        ({ r with
            input_buffers_ := popBuf r.input_buffers_ iv.1 iv.2,
            credit_ := modifyIdx2 r.credit_ op ov (fun c => c - 1),
            input_credit_to_send_ :=
              modifyIdx2 r.input_credit_to_send_ iv.1 iv.2 (fun c => c + 1) },
         setIdx outs op (some { p with vc := Int.ofNat ov }))) := by
  obtain ⟨i, v⟩ := iv
  unfold SimInputBufferedVCRouter.arbStep
  dsimp only
  rcases hh : (getIdx2 r.input_buffers_ i v).queue.head? with _ | p
  · exact Or.inl rfl
  · dsimp only
    rcases hroute : r.GetDestinationPortIndexAndVcIndex (i, v)
      p.destination_index with e | ⟨op, ov⟩
    · exact Or.inl rfl
    · dsimp only
      by_cases hg : outs.getD op none = none ∧ 0 < getIdx2 r.credit_ op ov
      · refine Or.inr ⟨p, op, ov, rfl, hroute, hg.1, hg.2, ?_⟩
        rw [if_pos hg]
      · left
        rw [if_neg hg]

end XlsNoc

namespace XlsNoc

theorem arbStep_credit_nonneg (r : SimInputBufferedVCRouter)
    (outs : List (Option DataPhit)) (iv : Nat × Nat)
    (h : ∀ p v, 0 ≤ getIdx2 r.credit_ p v) :
    ∀ p v, 0 ≤ getIdx2 (r.arbStep outs iv).1.credit_ p v := by
  rcases arbStep_cases r outs iv with heq | ⟨p, op, ov, hh, hr, hout, hcr, heq⟩
  · rw [heq]; exact h
  · rw [heq]
    intro q w
    dsimp only
    by_cases hqw : op = q ∧ ov = w
    · rcases hqw with ⟨rfl, rfl⟩
      rcases credit_pos_inRange r op ov hcr with ⟨h1, h2⟩
      rw [getIdx2_modifyIdx2_self _ op ov _ h1 h2]
      omega
    · rw [getIdx2_modifyIdx2_ne _ op ov q w _ (by tauto)]
      exact h q w

theorem arbitrate_credit_nonneg (pairs : List (Nat × Nat)) :
    ∀ (r : SimInputBufferedVCRouter) (outs : List (Option DataPhit)),
      (∀ p v, 0 ≤ getIdx2 r.credit_ p v) →
      ∀ p v, 0 ≤ getIdx2 (r.arbitrate outs pairs).1.credit_ p v := by
  induction pairs with
  | nil => intro r outs h; exact h
  | cons iv rest ih =>
    intro r outs h
    have hstep := arbStep_credit_nonneg r outs iv h
    have : r.arbitrate outs (iv :: rest) =
        SimInputBufferedVCRouter.arbitrate (r.arbStep outs iv).1
          (r.arbStep outs iv).2 rest := by
      simp [SimInputBufferedVCRouter.arbitrate]
    rw [this]
    exact ih _ _ hstep

end XlsNoc

namespace XlsNoc

theorem arbStep_conservation (r : SimInputBufferedVCRouter)
    (outs : List (Option DataPhit)) (iv : Nat × Nat)
    (hlen : r.input_credit_to_send_.length = r.input_buffers_.length)
    (hrow : ∀ k, (r.input_credit_to_send_.getD k []).length =
      (r.input_buffers_.getD k []).length) :
    (∀ i v,
      getIdx2 (r.arbStep outs iv).1.input_credit_to_send_ i v +
          (r.arbStep outs iv).1.bufLen i v =
        getIdx2 r.input_credit_to_send_ i v + r.bufLen i v) ∧
    ((r.arbStep outs iv).1.input_credit_to_send_.length =
      (r.arbStep outs iv).1.input_buffers_.length) ∧
    (∀ k, ((r.arbStep outs iv).1.input_credit_to_send_.getD k []).length =
      ((r.arbStep outs iv).1.input_buffers_.getD k []).length) ∧
    (∀ i v, (r.arbStep outs iv).1.bufLen i v ≤ r.bufLen i v) := by
  rcases arbStep_cases r outs iv with heq | ⟨p, op, ov, hh, hr, hout, hcr, heq⟩
  · rw [heq]
    exact ⟨fun i v => rfl, hlen, hrow, fun i v => le_refl _⟩
  · rw [heq]
    rcases bufHead_some_inRange r iv.1 iv.2 p hh with ⟨hb1, hb2⟩
    have hc1 : iv.1 < r.input_credit_to_send_.length := by omega
    have hc2 : iv.2 < (r.input_credit_to_send_.getD iv.1 []).length := by
      rw [hrow iv.1]; exact hb2
    obtain ⟨rest, hq⟩ : ∃ rest,
        (getIdx2 r.input_buffers_ iv.1 iv.2).queue = p :: rest := by
      rcases hqq : (getIdx2 r.input_buffers_ iv.1 iv.2).queue with _ | ⟨a, as⟩
      · rw [hqq] at hh; simp at hh
      · rw [hqq] at hh
        simp at hh
        exact ⟨as, by rw [hh]⟩
    refine ⟨?_, ?_, ?_, ?_⟩
    · intro i v
      dsimp only [SimInputBufferedVCRouter.bufLen]
      by_cases hiv : iv.1 = i ∧ iv.2 = v
      · rcases hiv with ⟨h1, h2⟩
        subst h1; subst h2
        rw [getIdx2_modifyIdx2_self _ iv.1 iv.2 _ hc1 hc2]
        unfold popBuf
        rw [getIdx2_modifyIdx2_self _ iv.1 iv.2 _ hb1 hb2]
        dsimp only
        rw [hq]
        dsimp only [List.tail_cons, List.length_cons]
        omega
      · rw [getIdx2_modifyIdx2_ne _ iv.1 iv.2 i v _ (by tauto)]
        unfold popBuf
        rw [getIdx2_modifyIdx2_ne _ iv.1 iv.2 i v _ (by tauto)]
    · dsimp only
      rw [length_modifyIdx2]
      unfold popBuf
      rw [length_modifyIdx2]
      exact hlen
    · intro k
      dsimp only
      rw [row_length_modifyIdx2]
      unfold popBuf
      rw [row_length_modifyIdx2]
      exact hrow k
    · intro i v
      dsimp only [SimInputBufferedVCRouter.bufLen]
      by_cases hiv : iv.1 = i ∧ iv.2 = v
      · rcases hiv with ⟨h1, h2⟩
        subst h1; subst h2
        unfold popBuf
        rw [getIdx2_modifyIdx2_self _ iv.1 iv.2 _ hb1 hb2]
        dsimp only
        rw [hq]
        simp
      · unfold popBuf
        rw [getIdx2_modifyIdx2_ne _ iv.1 iv.2 i v _ (by tauto)]

end XlsNoc

namespace XlsNoc

theorem arbitrate_conservation (pairs : List (Nat × Nat)) :
    ∀ (r : SimInputBufferedVCRouter) (outs : List (Option DataPhit)),
      r.input_credit_to_send_.length = r.input_buffers_.length →
      (∀ k, (r.input_credit_to_send_.getD k []).length =
        (r.input_buffers_.getD k []).length) →
      (∀ i v,
        getIdx2 (r.arbitrate outs pairs).1.input_credit_to_send_ i v +
            (r.arbitrate outs pairs).1.bufLen i v =
          getIdx2 r.input_credit_to_send_ i v + r.bufLen i v) ∧
      (∀ i v, (r.arbitrate outs pairs).1.bufLen i v ≤ r.bufLen i v) := by
  induction pairs with
  | nil => intro r outs _ _; exact ⟨fun i v => rfl, fun i v => le_refl _⟩
  | cons iv rest ih =>
    intro r outs hlen hrow
    rcases arbStep_conservation r outs iv hlen hrow with ⟨hsum, hlen1, hrow1, hmono⟩
    have hunf : r.arbitrate outs (iv :: rest) =
        SimInputBufferedVCRouter.arbitrate (r.arbStep outs iv).1
          (r.arbStep outs iv).2 rest := by
      simp [SimInputBufferedVCRouter.arbitrate]
    rcases ih (r.arbStep outs iv).1 (r.arbStep outs iv).2 hlen1 hrow1 with
      ⟨hsum2, hmono2⟩
    constructor
    · intro i v
      rw [hunf]
      rw [hsum2 i v, hsum i v]
    · intro i v
      rw [hunf]
      exact le_trans (hmono2 i v) (hmono i v)

end XlsNoc

namespace XlsNoc

theorem foldCreditUpdates_nonneg (credit : List Int) (upd : List CreditState)
    (cyc : Int) (hc : ∀ v, 0 ≤ credit.getD v 0)
    (hu : ∀ v, 0 ≤ (upd.getD v default).credit) :
    ∀ v, 0 ≤ (foldCreditUpdates credit upd cyc).getD v 0 := by
  intro v
  by_cases hv : v < credit.length
  · unfold foldCreditUpdates
    rw [getD_map_range _ _ _ _ hv]
    show 0 ≤ (if (upd.getD v default).cycle = cyc - 1 then
        credit.getD v 0 + (upd.getD v default).credit
      else credit.getD v 0)
    split
    · have h1 := hc v
      have h2 := hu v
      omega
    · exact hc v
  · unfold foldCreditUpdates
    rw [getD_oob _ _ _ (by simp; omega)]

theorem getD_int_nonneg_of_all (xs : List Int) (h : ∀ x ∈ xs, 0 ≤ x)
    (v : Nat) : 0 ≤ xs.getD v 0 := by
  by_cases hv : v < xs.length
  · rw [List.getD_eq_getElem xs 0 hv]
    exact h _ (List.getElem_mem hv)
  · rw [getD_oob xs v 0 (Nat.le_of_not_lt hv)]

theorem getD_credit_nonneg_of_all (xs : List CreditState)
    (h : ∀ x ∈ xs, 0 ≤ x.credit) (v : Nat) :
    0 ≤ (xs.getD v default).credit := by
  by_cases hv : v < xs.length
  · rw [List.getD_eq_getElem xs default hv]
    exact h _ (List.getElem_mem hv)
  · rw [getD_oob xs v default (Nat.le_of_not_lt hv)]
    exact le_refl 0

theorem getIdx2_int_nonneg_of_all (xs : List (List Int))
    (h : ∀ row ∈ xs, ∀ x ∈ row, 0 ≤ x) (p v : Nat) :
    0 ≤ getIdx2 xs p v := by
  unfold getIdx2
  by_cases hp : p < xs.length
  · refine getD_int_nonneg_of_all _ ?_ v
    rw [List.getD_eq_getElem xs [] hp]
    exact h _ (List.getElem_mem hp)
  · rw [getD_oob xs p [] (Nat.le_of_not_lt hp)]
    rfl

theorem srcTryF_credit_nonneg (s : SimNetworkInterfaceSrc)
    (conns : List SimConnectionState) (cyc : Int)
    (hc : ∀ v, 0 ≤ s.credit_.getD v 0)
    (hu : ∀ v, 0 ≤ (s.credit_update_.getD v default).credit) :
    ∀ v, 0 ≤ (s.tryForwardPropagation conns cyc).1.credit_.getD v 0 := by
  intro v
  have hf := foldCreditUpdates_nonneg s.credit_ s.credit_update_ cyc hc hu
  unfold SimNetworkInterfaceSrc.tryForwardPropagation
  dsimp only
  rcases hfind : (List.range s.data_to_send_.length).find?
      (s.eligibleVc (foldCreditUpdates s.credit_ s.credit_update_ cyc)
        cyc) with _ | v0
  · exact hf v
  · dsimp only
    obtain ⟨hel, hlt, _⟩ := find?_range_first _ _ _ hfind
    unfold SimNetworkInterfaceSrc.eligibleVc at hel
    rcases hh : (s.data_to_send_.getD v0 []).head? with _ | t
    · rw [hh] at hel
      simp at hel
    · rw [hh] at hel
      rcases Bool.and_eq_true_iff.mp hel with ⟨_, h2⟩
      have hpos : 0 < (foldCreditUpdates s.credit_ s.credit_update_
          cyc).getD v0 0 := of_decide_eq_true h2
      by_cases hv : v = v0
      · subst hv
        by_cases hlen : v <
            (foldCreditUpdates s.credit_ s.credit_update_ cyc).length
        · rw [getD_modifyIdx_self _ v _ 0 hlen]
          omega
        · rw [modifyIdx_oob _ v _ (Nat.le_of_not_lt hlen)]
          exact hf v
      · rw [getD_modifyIdx_ne _ v0 v _ 0 (fun hc2 => hv hc2.symm)]
        exact hf v

/-- Claim C8: live credit counts are never negative — the delayed-update
fold preserves nonnegativity (given the nonnegative freed-slot counts the
protocol sends), the router's arbitration pass decrements a credit only
when it is positive, and the source's forward emission decrements only
the positive credit of the eligible virtual channel (the system's only
other negative-going credit operation) — and, per cycle, the credit a
router records to send upstream for each input buffer exactly equals
(hence never exceeds) the number of slots freed in that downstream
buffer: counters plus buffer length are invariant across arbitration,
buffers only drain, and from the per-cycle zero reset the counter equals
initial minus final buffer length. -/
theorem credit_nonneg_and_conserved :
    (∀ (credit : List Int) (upd : List CreditState) (cyc : Int),
      (∀ v, 0 ≤ credit.getD v 0) →
      (∀ v, 0 ≤ (upd.getD v default).credit) →
      ∀ v, 0 ≤ (foldCreditUpdates credit upd cyc).getD v 0) ∧
    (∀ (r : SimInputBufferedVCRouter) (outs : List (Option DataPhit))
        (pairs : List (Nat × Nat)),
      (∀ p v, 0 ≤ getIdx2 r.credit_ p v) →
      ∀ p v, 0 ≤ getIdx2 (r.arbitrate outs pairs).1.credit_ p v) ∧
    (∀ (r : SimInputBufferedVCRouter) (outs : List (Option DataPhit))
        (pairs : List (Nat × Nat)),
      r.input_credit_to_send_.length = r.input_buffers_.length →
      (∀ k, (r.input_credit_to_send_.getD k []).length =
        (r.input_buffers_.getD k []).length) →
      ∀ i v,
        getIdx2 (r.arbitrate outs pairs).1.input_credit_to_send_ i v +
            (r.arbitrate outs pairs).1.bufLen i v =
          getIdx2 r.input_credit_to_send_ i v + r.bufLen i v) ∧
    (∀ (r : SimInputBufferedVCRouter) (outs : List (Option DataPhit))
        (pairs : List (Nat × Nat)),
      r.input_credit_to_send_.length = r.input_buffers_.length →
      (∀ k, (r.input_credit_to_send_.getD k []).length =
        (r.input_buffers_.getD k []).length) →
      (∀ i v, getIdx2 r.input_credit_to_send_ i v = 0) →
      ∀ i v,
        getIdx2 (r.arbitrate outs pairs).1.input_credit_to_send_ i v =
          r.bufLen i v - (r.arbitrate outs pairs).1.bufLen i v ∧
        0 ≤ getIdx2 (r.arbitrate outs pairs).1.input_credit_to_send_ i v ∧
        getIdx2 (r.arbitrate outs pairs).1.input_credit_to_send_ i v ≤
          r.bufLen i v) ∧
    (∀ (s : SimNetworkInterfaceSrc) (conns : List SimConnectionState)
        (cyc : Int),
      (∀ v, 0 ≤ s.credit_.getD v 0) →
      (∀ v, 0 ≤ (s.credit_update_.getD v default).credit) →
      ∀ v, 0 ≤ (s.tryForwardPropagation conns cyc).1.credit_.getD v 0) := by
  refine ⟨foldCreditUpdates_nonneg, ?_, ?_, ?_,
    fun s conns cyc hc hu => srcTryF_credit_nonneg s conns cyc hc hu⟩
  · intro r outs pairs h
    exact arbitrate_credit_nonneg pairs r outs h
  · intro r outs pairs hlen hrow
    exact (arbitrate_conservation pairs r outs hlen hrow).1
  · intro r outs pairs hlen hrow hzero i v
    rcases arbitrate_conservation pairs r outs hlen hrow with ⟨hsum, hmono⟩
    have h1 := hsum i v
    have h2 := hmono i v
    have h3 := hzero i v
    have hb : (0 : Int) ≤ (r.arbitrate outs pairs).1.bufLen i v := by
      unfold SimInputBufferedVCRouter.bufLen
      positivity
    constructor
    · omega
    constructor
    · omega
    · omega

end XlsNoc

namespace XlsNoc

/-- Witness for credit_nonneg_and_conserved at live instances: a real
delayed increment (1 + 2 = 3), the spec's contended demoRouter (one
credit, two contenders), its conservation identity, and a source that
actually emits and decrements its folded credit. -/
theorem credit_nonneg_and_conserved_witness :
    ((0 : Int) ≤ (foldCreditUpdates [1] [⟨0, 2⟩] 1).getD 0 0) ∧
    ((0 : Int) ≤ getIdx2
      (demoRouter.arbitrate [none] (pairsLex 2 1)).1.credit_ 0 0) ∧
    (getIdx2 (demoRouter.arbitrate [none]
          (pairsLex 2 1)).1.input_credit_to_send_ 0 0 =
        demoRouter.bufLen 0 0 -
          (demoRouter.arbitrate [none] (pairsLex 2 1)).1.bufLen 0 0 ∧
      (0 : Int) ≤ getIdx2 (demoRouter.arbitrate [none]
          (pairsLex 2 1)).1.input_credit_to_send_ 0 0 ∧
      getIdx2 (demoRouter.arbitrate [none]
          (pairsLex 2 1)).1.input_credit_to_send_ 0 0 ≤
        demoRouter.bufLen 0 0) ∧
    ((0 : Int) ≤ (SimNetworkInterfaceSrc.tryForwardPropagation
        ⟨0, [1], [⟨0, 2⟩], [[⟨0, ⟨true, 0, 0, 9⟩⟩]]⟩ []
        1).1.credit_.getD 0 0) :=
  ⟨credit_nonneg_and_conserved.1 [1] [⟨0, 2⟩] 1
     (getD_int_nonneg_of_all [1] (by decide))
     (getD_credit_nonneg_of_all [⟨0, 2⟩] (by decide)) 0,
   credit_nonneg_and_conserved.2.1 demoRouter [none] (pairsLex 2 1)
     (getIdx2_int_nonneg_of_all demoRouter.credit_ (by decide)) 0 0,
   credit_nonneg_and_conserved.2.2.2.1 demoRouter [none] (pairsLex 2 1)
     (by decide)
     (fun k => match k with
       | 0 => rfl
       | 1 => rfl
       | Nat.succ (Nat.succ n) => rfl)
     (fun i v => match i, v with
       | 0, 0 => rfl
       | 0, Nat.succ n => rfl
       | 1, 0 => rfl
       | 1, Nat.succ n => rfl
       | Nat.succ (Nat.succ m), v => rfl) 0 0,
   credit_nonneg_and_conserved.2.2.2.2
     ⟨0, [1], [⟨0, 2⟩], [[⟨0, ⟨true, 0, 0, 9⟩⟩]]⟩ [] 1
     (getD_int_nonneg_of_all [1] (by decide))
     (getD_credit_nonneg_of_all [⟨0, 2⟩] (by decide)) 0⟩

end XlsNoc

namespace XlsNoc

theorem arbStep_table (r : SimInputBufferedVCRouter)
    (outs : List (Option DataPhit)) (iv : Nat × Nat) :
    (r.arbStep outs iv).1.routing_table = r.routing_table := by
  rcases arbStep_cases r outs iv with heq | ⟨p, op, ov, _, _, _, _, heq⟩ <;>
    rw [heq]

theorem arbStep_buffer_frame (r : SimInputBufferedVCRouter)
    (outs : List (Option DataPhit)) (iv : Nat × Nat) (a b : Nat)
    (h : (a, b) ≠ iv) :
    getIdx2 (r.arbStep outs iv).1.input_buffers_ a b =
      getIdx2 r.input_buffers_ a b := by
  rcases arbStep_cases r outs iv with heq | ⟨p, op, ov, _, _, _, _, heq⟩
  · rw [heq]
  · rw [heq]
    dsimp only
    unfold popBuf
    refine getIdx2_modifyIdx2_ne _ iv.1 iv.2 a b _ ?_
    by_contra hc
    push_neg at hc
    exact h (by
      rcases hc with ⟨h1, h2⟩
      have : (a, b) = (iv.1, iv.2) := by rw [h1, h2]
      rw [this])

theorem arbStep_outs_length (r : SimInputBufferedVCRouter)
    (outs : List (Option DataPhit)) (iv : Nat × Nat) :
    (r.arbStep outs iv).2.length = outs.length := by
  rcases arbStep_cases r outs iv with heq | ⟨p, op, ov, _, _, _, _, heq⟩ <;>
    rw [heq]
  simp [setIdx]

theorem contendsFor_frame (r r2 : SimInputBufferedVCRouter) (iv : Nat × Nat)
    (op : Nat)
    (hbuf : getIdx2 r2.input_buffers_ iv.1 iv.2 =
      getIdx2 r.input_buffers_ iv.1 iv.2)
    (htbl : r2.routing_table = r.routing_table) :
    (r2.contendsFor iv op ↔ r.contendsFor iv op) := by
  unfold SimInputBufferedVCRouter.contendsFor
  rw [hbuf]
  unfold SimInputBufferedVCRouter.GetDestinationPortIndexAndVcIndex
  rw [htbl]

theorem arbStep_claimed (r : SimInputBufferedVCRouter)
    (outs : List (Option DataPhit)) (iv : Nat × Nat) (op : Nat)
    (x : DataPhit) (h : outs.getD op none = some x) :
    (r.arbStep outs iv).2.getD op none = some x := by
  rcases arbStep_cases r outs iv with heq | ⟨p, op2, ov, _, _, hout, _, heq⟩
  · rw [heq]; exact h
  · rw [heq]
    dsimp only
    have hne : op2 ≠ op := by
      intro hc
      rw [hc, h] at hout
      exact Option.noConfusion hout
    rw [getD_setIdx_ne _ _ _ _ _ hne]
    exact h

theorem arbStep_blocked (r : SimInputBufferedVCRouter)
    (outs : List (Option DataPhit)) (iv : Nat × Nat) (op : Nat)
    (x : DataPhit) (hclaimed : outs.getD op none = some x)
    (hcont : r.contendsFor iv op) :
    r.arbStep outs iv = (r, outs) := by
  obtain ⟨p, ov, hh, hroute⟩ := hcont
  obtain ⟨i, v⟩ := iv
  unfold SimInputBufferedVCRouter.arbStep
  dsimp only
  rw [hh]
  dsimp only
  rw [hroute]
  dsimp only
  rw [if_neg]
  intro hg
  rw [hg.1] at hclaimed
  exact Option.noConfusion hclaimed

end XlsNoc

namespace XlsNoc

theorem arbStep_nonContender (r : SimInputBufferedVCRouter)
    (outs : List (Option DataPhit)) (iv : Nat × Nat) (op : Nat)
    (h : ¬ r.contendsFor iv op) :
    ((r.arbStep outs iv).2.getD op none = outs.getD op none) ∧
    ((r.arbStep outs iv).1.credit_.getD op [] = r.credit_.getD op []) := by
  rcases arbStep_cases r outs iv with heq | ⟨p, op2, ov, hh, hroute, _, _, heq⟩
  · rw [heq]; exact ⟨rfl, rfl⟩
  · have hne : op2 ≠ op := by
      intro hc
      exact h ⟨p, ov, hh, by rw [hc] at hroute; exact hroute⟩
    rw [heq]
    dsimp only
    constructor
    · rw [getD_setIdx_ne _ _ _ _ _ hne]
    · unfold modifyIdx2
      rw [getD_modifyIdx_ne _ _ _ _ _ hne]

theorem arbitrate_nil (r : SimInputBufferedVCRouter)
    (outs : List (Option DataPhit)) :
    r.arbitrate outs [] = (r, outs) := rfl

theorem arbitrate_cons (r : SimInputBufferedVCRouter)
    (outs : List (Option DataPhit)) (iv : Nat × Nat)
    (rest : List (Nat × Nat)) :
    r.arbitrate outs (iv :: rest) =
      SimInputBufferedVCRouter.arbitrate (r.arbStep outs iv).1
        (r.arbStep outs iv).2 rest := by
  simp [SimInputBufferedVCRouter.arbitrate]

theorem arbitrate_append (r : SimInputBufferedVCRouter)
    (outs : List (Option DataPhit)) (L1 L2 : List (Nat × Nat)) :
    r.arbitrate outs (L1 ++ L2) =
      SimInputBufferedVCRouter.arbitrate (r.arbitrate outs L1).1
        (r.arbitrate outs L1).2 L2 := by
  unfold SimInputBufferedVCRouter.arbitrate
  rw [List.foldl_append]

theorem arbitrate_table (L : List (Nat × Nat)) :
    ∀ (r : SimInputBufferedVCRouter) (outs : List (Option DataPhit)),
      (r.arbitrate outs L).1.routing_table = r.routing_table := by
  induction L with
  | nil => intro r outs; rfl
  | cons iv rest ih =>
    intro r outs
    rw [arbitrate_cons]
    rw [ih]
    exact arbStep_table r outs iv

theorem arbitrate_buffer_frame (L : List (Nat × Nat)) :
    ∀ (r : SimInputBufferedVCRouter) (outs : List (Option DataPhit))
      (a b : Nat), (a, b) ∉ L →
      getIdx2 (r.arbitrate outs L).1.input_buffers_ a b =
        getIdx2 r.input_buffers_ a b := by
  induction L with
  | nil => intro r outs a b _; rfl
  | cons iv rest ih =>
    intro r outs a b hab
    rw [arbitrate_cons]
    rw [ih _ _ a b (fun hc => hab (List.mem_cons_of_mem iv hc))]
    exact arbStep_buffer_frame r outs iv a b
      (fun hc => hab (by rw [hc]; exact List.mem_cons_self iv rest))

theorem arbitrate_claimed (L : List (Nat × Nat)) :
    ∀ (r : SimInputBufferedVCRouter) (outs : List (Option DataPhit))
      (op : Nat) (x : DataPhit), outs.getD op none = some x →
      (r.arbitrate outs L).2.getD op none = some x := by
  induction L with
  | nil => intro r outs op x h; exact h
  | cons iv rest ih =>
    intro r outs op x h
    rw [arbitrate_cons]
    exact ih _ _ op x (arbStep_claimed r outs iv op x h)

theorem arbitrate_outs_length (L : List (Nat × Nat)) :
    ∀ (r : SimInputBufferedVCRouter) (outs : List (Option DataPhit)),
      (r.arbitrate outs L).2.length = outs.length := by
  induction L with
  | nil => intro r outs; rfl
  | cons iv rest ih =>
    intro r outs
    rw [arbitrate_cons, ih]
    exact arbStep_outs_length r outs iv

end XlsNoc

namespace XlsNoc

theorem arbitrate_no_contender_prefix (op : Nat) :
    ∀ (L : List (Nat × Nat)) (r : SimInputBufferedVCRouter)
      (outs : List (Option DataPhit)),
      L.Nodup → (∀ iv ∈ L, ¬ r.contendsFor iv op) →
      ((r.arbitrate outs L).2.getD op none = outs.getD op none) ∧
      ((r.arbitrate outs L).1.credit_.getD op [] = r.credit_.getD op []) := by
  intro L
  induction L with
  | nil => intro r outs _ _; exact ⟨rfl, rfl⟩
  | cons iv rest ih =>
    intro r outs hnd hnc
    have hiv : ¬ r.contendsFor iv op := hnc iv (List.mem_cons_self iv rest)
    rcases arbStep_nonContender r outs iv op hiv with ⟨ho, hcr⟩
    have hivmem := (List.nodup_cons.mp hnd).1
    have hnd2 := (List.nodup_cons.mp hnd).2
    have hnc2 : ∀ iv2 ∈ rest, ¬ (r.arbStep outs iv).1.contendsFor iv2 op := by
      intro iv2 hm hcont
      have hne : iv2 ≠ iv := fun hc => hivmem (hc ▸ hm)
      have hbuf := arbStep_buffer_frame r outs iv iv2.1 iv2.2
        (by rw [Prod.mk.eta]; exact hne)
      have htbl := arbStep_table r outs iv
      exact hnc iv2 (List.mem_cons_of_mem iv hm)
        ((contendsFor_frame r (r.arbStep outs iv).1 iv2 op hbuf htbl).mp hcont)
    rw [arbitrate_cons]
    rcases ih (r.arbStep outs iv).1 (r.arbStep outs iv).2 hnd2 hnc2 with
      ⟨ih1, ih2⟩
    exact ⟨by rw [ih1, ho], by rw [ih2, hcr]⟩

end XlsNoc

namespace XlsNoc

theorem arbStep_winner (r : SimInputBufferedVCRouter)
    (outs : List (Option DataPhit)) (iv : Nat × Nat) (op ov : Nat)
    (p : DataPhit)
    (hh : (getIdx2 r.input_buffers_ iv.1 iv.2).queue.head? = some p)
    (hroute : r.GetDestinationPortIndexAndVcIndex iv p.destination_index =
      Except.ok (op, ov))
    (hout : outs.getD op none = none)
    (hoplen : op < outs.length)
    (hcr : 0 < getIdx2 r.credit_ op ov) :
    (r.arbStep outs iv).2.getD op none =
      some { p with vc := Int.ofNat ov } := by
  obtain ⟨i, v⟩ := iv
  unfold SimInputBufferedVCRouter.arbStep
  dsimp only
  rw [hh]
  dsimp only
  rw [hroute]
  dsimp only
  rw [if_pos ⟨hout, hcr⟩]
  dsimp only
  exact getD_setIdx_self outs op _ none hoplen

theorem arbitrate_losers_hold (op : Nat) (x : DataPhit) :
    ∀ (L : List (Nat × Nat)) (r : SimInputBufferedVCRouter)
      (outs : List (Option DataPhit)),
      outs.getD op none = some x → L.Nodup →
      ∀ ivL ∈ L, r.contendsFor ivL op →
        getIdx2 (r.arbitrate outs L).1.input_buffers_ ivL.1 ivL.2 =
          getIdx2 r.input_buffers_ ivL.1 ivL.2 := by
  intro L
  induction L with
  | nil => intro r outs _ _ ivL hm; exact absurd hm (List.not_mem_nil ivL)
  | cons iv rest ih =>
    intro r outs hclaimed hnd ivL hm hcont
    have hivmem := (List.nodup_cons.mp hnd).1
    have hnd2 := (List.nodup_cons.mp hnd).2
    rcases List.mem_cons.mp hm with rfl | hm2
    · -- ivL is processed first: it is blocked, then untouched by the rest
      rw [arbitrate_cons, arbStep_blocked r outs ivL op x hclaimed hcont]
      exact arbitrate_buffer_frame rest r outs ivL.1 ivL.2
        (by rw [Prod.mk.eta]; exact hivmem)
    · -- ivL comes later: the first step keeps its buffer, its contention
      -- and the claimed output
      have hne : ivL ≠ iv := fun hc => hivmem (hc ▸ hm2)
      have hbuf := arbStep_buffer_frame r outs iv ivL.1 ivL.2
        (by rw [Prod.mk.eta]; exact hne)
      have htbl := arbStep_table r outs iv
      have hcont2 : (r.arbStep outs iv).1.contendsFor ivL op :=
        (contendsFor_frame r (r.arbStep outs iv).1 ivL op hbuf htbl).mpr hcont
      have hclaimed2 := arbStep_claimed r outs iv op x hclaimed
      rw [arbitrate_cons]
      rw [ih (r.arbStep outs iv).1 (r.arbStep outs iv).2 hclaimed2 hnd2
        ivL hm2 hcont2]
      exact hbuf

end XlsNoc

namespace XlsNoc

theorem getIdx2_modifyIdx2_cases {α : Type} [Inhabited α]
    (xs : List (List α)) (i j : Nat) (f : α → α) (a b : Nat) :
    getIdx2 (modifyIdx2 xs i j f) a b = getIdx2 xs a b ∨
    getIdx2 (modifyIdx2 xs i j f) a b = f (getIdx2 xs a b) := by
  by_cases hia : i = a
  · by_cases hjb : j = b
    · subst hia
      subst hjb
      by_cases h1 : i < xs.length
      · by_cases h2 : j < (xs.getD i []).length
        · exact Or.inr (getIdx2_modifyIdx2_self xs i j f h1 h2)
        · left
          unfold getIdx2 modifyIdx2
          rw [getD_modifyIdx_self xs i _ [] h1,
            modifyIdx_oob _ _ _ (Nat.le_of_not_lt h2)]
      · left
        unfold getIdx2 modifyIdx2
        rw [modifyIdx_oob xs i _ (Nat.le_of_not_lt h1)]
    · exact Or.inl (getIdx2_modifyIdx2_ne xs i j a b f (Or.inr hjb))
  · exact Or.inl (getIdx2_modifyIdx2_ne xs i j a b f (Or.inl hia))

theorem enqueueStep_extension (conns : List SimConnectionState)
    (r : SimInputBufferedVCRouter) (k : Nat) (i v : Nat) :
    ∃ ext, (getIdx2 (SimInputBufferedVCRouter.enqueueStep conns r
        k).input_buffers_ i v).queue =
      (getIdx2 r.input_buffers_ i v).queue ++ ext := by
  unfold SimInputBufferedVCRouter.enqueueStep
  dsimp only
  split
  · dsimp only
    rcases getIdx2_modifyIdx2_cases r.input_buffers_ k
      ((conns.getD (r.input_connection_index_start_ + k)
        default).forward_channels.phit.vc.toNat)
      (fun q => if q.queue.length < q.max_queue_size.toNat then
        { q with queue := q.queue ++
          [(conns.getD (r.input_connection_index_start_ + k)
            default).forward_channels.phit] }
        else q) i v with hc | hc
    · exact ⟨[], by rw [hc, List.append_nil]⟩
    · rw [hc]
      split
      · exact ⟨_, rfl⟩
      · exact ⟨[], (List.append_nil _).symm⟩
  · exact ⟨[], (List.append_nil _).symm⟩

theorem foldl_enqueueStep_extension (conns : List SimConnectionState) :
    ∀ (ks : List Nat) (r : SimInputBufferedVCRouter) (i v : Nat),
      ∃ ext, (getIdx2 (ks.foldl (SimInputBufferedVCRouter.enqueueStep conns)
          r).input_buffers_ i v).queue =
        (getIdx2 r.input_buffers_ i v).queue ++ ext := by
  intro ks
  induction ks with
  | nil => exact fun r i v => ⟨[], (List.append_nil _).symm⟩
  | cons k rest ih =>
    intro r i v
    rcases ih (SimInputBufferedVCRouter.enqueueStep conns r k) i v with
      ⟨ext2, h2⟩
    rcases enqueueStep_extension conns r k i v with ⟨ext1, h1⟩
    exact ⟨ext1 ++ ext2,
      by rw [List.foldl_cons, h2, h1, List.append_assoc]⟩

theorem getDestination_eq_of_table (r r2 : SimInputBufferedVCRouter)
    (input : Nat × Nat) (d : Int) (h : r2.routing_table = r.routing_table) :
    r2.GetDestinationPortIndexAndVcIndex input d =
      r.GetDestinationPortIndexAndVcIndex input d := by
  unfold SimInputBufferedVCRouter.GetDestinationPortIndexAndVcIndex
  rw [h]

end XlsNoc

namespace XlsNoc

theorem getIdx2_congr_row {α : Type} [Inhabited α] (xs ys : List (List α))
    (i j : Nat) (h : xs.getD i [] = ys.getD i []) :
    getIdx2 xs i j = getIdx2 ys i j := by
  unfold getIdx2
  rw [h]

/-- Claim C7: router arbitration is fixed-priority and deterministic.
In an arbitration pass over any priority list (the router uses the
port-major, lowest-index-first pairsLex order), the first listed
input-port/vc pair whose buffered front phit routes to output port op —
when that output is unclaimed and its output vc has credit — wins op,
and op carries exactly that phit (with its vc rewritten to the output
vc); every later contender for the same output keeps its buffer
unchanged, remaining queued at the front in strict FIFO order
(new arrivals only ever append at the back, third conjunct), and
re-running from equal states yields identical results (second
conjunct). -/
theorem router_fixed_priority_deterministic :
    (∀ (r : SimInputBufferedVCRouter) (outs : List (Option DataPhit))
        (L1 L2 : List (Nat × Nat)) (iv0 : Nat × Nat) (op ov : Nat)
        (p : DataPhit),
      (L1 ++ iv0 :: L2).Nodup →
      (∀ iv ∈ L1, ¬ r.contendsFor iv op) →
      (getIdx2 r.input_buffers_ iv0.1 iv0.2).queue.head? = some p →
      r.GetDestinationPortIndexAndVcIndex iv0 p.destination_index =
        Except.ok (op, ov) →
      outs.getD op none = none →
      op < outs.length →
      0 < getIdx2 r.credit_ op ov →
      ((r.arbitrate outs (L1 ++ iv0 :: L2)).2.getD op none =
        some { p with vc := Int.ofNat ov }) ∧
      (∀ ivL ∈ L2, r.contendsFor ivL op →
        getIdx2 (r.arbitrate outs
            (L1 ++ iv0 :: L2)).1.input_buffers_ ivL.1 ivL.2 =
          getIdx2 r.input_buffers_ ivL.1 ivL.2)) ∧
    (∀ (r1 r2 : SimInputBufferedVCRouter)
        (outs1 outs2 : List (Option DataPhit))
        (pairs1 pairs2 : List (Nat × Nat)),
      r1 = r2 → outs1 = outs2 → pairs1 = pairs2 →
      r1.arbitrate outs1 pairs1 = r2.arbitrate outs2 pairs2) ∧
    (∀ (r : SimInputBufferedVCRouter) (conns : List SimConnectionState)
        (i v : Nat),
      ∃ ext, (getIdx2 (r.enqueueIncoming conns).input_buffers_ i v).queue =
        (getIdx2 r.input_buffers_ i v).queue ++ ext) := by
  refine ⟨?_, ?_, ?_⟩
  · intro r outs L1 L2 iv0 op ov p hnd hnc hh hroute hout hoplen hcr
    rcases List.nodup_append.mp hnd with ⟨hndL1, hndC, hdisj⟩
    have hiv0L2 : iv0 ∉ L2 := (List.nodup_cons.mp hndC).1
    have hndL2 : L2.Nodup := (List.nodup_cons.mp hndC).2
    have hiv0L1 : iv0 ∉ L1 := fun hm =>
      hdisj hm (List.mem_cons_self iv0 L2)
    have happ : r.arbitrate outs (L1 ++ iv0 :: L2) =
        SimInputBufferedVCRouter.arbitrate
          ((r.arbitrate outs L1).1.arbStep (r.arbitrate outs L1).2 iv0).1
          ((r.arbitrate outs L1).1.arbStep (r.arbitrate outs L1).2 iv0).2
          L2 := by
      rw [arbitrate_append, arbitrate_cons]
    rcases arbitrate_no_contender_prefix op L1 r outs hndL1 hnc with
      ⟨ho1, hcrow⟩
    have hbuf0 : getIdx2 (r.arbitrate outs L1).1.input_buffers_ iv0.1 iv0.2 =
        getIdx2 r.input_buffers_ iv0.1 iv0.2 :=
      arbitrate_buffer_frame L1 r outs iv0.1 iv0.2
        (by rw [Prod.mk.eta]; exact hiv0L1)
    have htbl : (r.arbitrate outs L1).1.routing_table = r.routing_table :=
      arbitrate_table L1 r outs
    have hh1 : (getIdx2 (r.arbitrate outs L1).1.input_buffers_ iv0.1
        iv0.2).queue.head? = some p := by rw [hbuf0]; exact hh
    have hroute1 : (r.arbitrate outs
        L1).1.GetDestinationPortIndexAndVcIndex iv0 p.destination_index =
        Except.ok (op, ov) := by
      rw [getDestination_eq_of_table r (r.arbitrate outs L1).1 iv0
        p.destination_index htbl]
      exact hroute
    have ho1' : (r.arbitrate outs L1).2.getD op none = none := by
      rw [ho1]; exact hout
    have hcr1 : 0 < getIdx2 (r.arbitrate outs L1).1.credit_ op ov := by
      rw [getIdx2_congr_row _ r.credit_ op ov hcrow]
      exact hcr
    have hoplen1 : op < (r.arbitrate outs L1).2.length := by
      rw [arbitrate_outs_length]; exact hoplen
    have hwin := arbStep_winner (r.arbitrate outs L1).1
      (r.arbitrate outs L1).2 iv0 op ov p hh1 hroute1 ho1' hoplen1 hcr1
    constructor
    · rw [happ]
      exact arbitrate_claimed L2 _ _ op _ hwin
    · intro ivL hmem hcont
      have hivLL1 : ivL ∉ L1 := fun hm =>
        hdisj hm (List.mem_cons_of_mem iv0 hmem)
      have hivL0 : ivL ≠ iv0 := fun hc => hiv0L2 (hc ▸ hmem)
      have hbufL1 : getIdx2 (r.arbitrate outs L1).1.input_buffers_ ivL.1
          ivL.2 = getIdx2 r.input_buffers_ ivL.1 ivL.2 :=
        arbitrate_buffer_frame L1 r outs ivL.1 ivL.2
          (by rw [Prod.mk.eta]; exact hivLL1)
      have hbufStep : getIdx2 ((r.arbitrate outs L1).1.arbStep
          (r.arbitrate outs L1).2 iv0).1.input_buffers_ ivL.1 ivL.2 =
          getIdx2 (r.arbitrate outs L1).1.input_buffers_ ivL.1 ivL.2 :=
        arbStep_buffer_frame (r.arbitrate outs L1).1 (r.arbitrate outs L1).2
          iv0 ivL.1 ivL.2 (by rw [Prod.mk.eta]; exact hivL0)
      have htbl2 : ((r.arbitrate outs L1).1.arbStep
          (r.arbitrate outs L1).2 iv0).1.routing_table = r.routing_table := by
        rw [arbStep_table, htbl]
      have hcont2 : ((r.arbitrate outs L1).1.arbStep
          (r.arbitrate outs L1).2 iv0).1.contendsFor ivL op := by
        refine (contendsFor_frame r _ ivL op ?_ htbl2).mpr hcont
        rw [hbufStep, hbufL1]
      rw [happ]
      rw [arbitrate_losers_hold op { p with vc := Int.ofNat ov } L2 _ _
        hwin hndL2 ivL hmem hcont2]
      rw [hbufStep, hbufL1]
  · intro r1 r2 outs1 outs2 pairs1 pairs2 h1 h2 h3
    rw [h1, h2, h3]
  · intro r conns i v
    exact foldl_enqueueStep_extension conns
      (List.range r.input_connection_count_) r i v

end XlsNoc

namespace XlsNoc

/-- Witness for router_fixed_priority_deterministic: two inputs contend
for output 0 holding one credit; input 0's phit (data 11) wins and
input 1's phit stays buffered. -/
theorem router_fixed_priority_deterministic_witness :
    ((demoRouter.arbitrate [none] ([] ++ (0, 0) :: [(1, 0)])).2.getD 0 none =
      some ⟨true, 0, Int.ofNat 0, 11⟩) ∧
    (∀ ivL ∈ [((1 : Nat), (0 : Nat))], demoRouter.contendsFor ivL 0 →
      getIdx2 (demoRouter.arbitrate [none]
          ([] ++ (0, 0) :: [(1, 0)])).1.input_buffers_ ivL.1 ivL.2 =
        getIdx2 demoRouter.input_buffers_ ivL.1 ivL.2) :=
  router_fixed_priority_deterministic.1 demoRouter [none] [] [(1, 0)] (0, 0)
    0 0 ⟨true, 0, 0, 11⟩ (by decide)
    (fun iv h => absurd h (List.not_mem_nil iv)) (by decide) (by rfl)
    (by decide) (by decide) (by decide)

end XlsNoc

namespace XlsNoc

theorem writeForward_getD_ne (conns : List SimConnectionState) (idx : Nat)
    (t : TimedDataPhit) (k : Nat) (h : idx ≠ k) :
    (writeForward conns idx t).getD k default = conns.getD k default :=
  getD_modifyIdx_ne conns idx k _ default h

theorem writeForward_reverse_unchanged (conns : List SimConnectionState)
    (idx : Nat) (t : TimedDataPhit) (k : Nat) :
    ((writeForward conns idx t).getD k default).reverse_channels =
      (conns.getD k default).reverse_channels := by
  by_cases hk : idx = k
  · subst hk
    by_cases hlen : idx < conns.length
    · unfold writeForward
      rw [getD_modifyIdx_self conns idx _ default hlen]
      split <;> rfl
    · unfold writeForward
      rw [modifyIdx_oob conns idx _ (Nat.le_of_not_lt hlen)]
  · rw [writeForward_getD_ne conns idx t k hk]

theorem writeForward_id_unchanged (conns : List SimConnectionState)
    (idx : Nat) (t : TimedDataPhit) (k : Nat) :
    ((writeForward conns idx t).getD k default).id =
      (conns.getD k default).id := by
  by_cases hk : idx = k
  · subst hk
    by_cases hlen : idx < conns.length
    · unfold writeForward
      rw [getD_modifyIdx_self conns idx _ default hlen]
      split <;> rfl
    · unfold writeForward
      rw [modifyIdx_oob conns idx _ (Nat.le_of_not_lt hlen)]
  · rw [writeForward_getD_ne conns idx t k hk]

theorem writeForward_forward (conns : List SimConnectionState) (idx : Nat)
    (t : TimedDataPhit) (k : Nat) :
    ((writeForward conns idx t).getD k default).forward_channels =
      (conns.getD k default).forward_channels ∨
    (idx = k ∧
      ((writeForward conns idx t).getD k default).forward_channels = t) := by
  by_cases hk : idx = k
  · subst hk
    by_cases hlen : idx < conns.length
    · unfold writeForward
      rw [getD_modifyIdx_self conns idx _ default hlen]
      split
      · left
        rfl
      · right
        exact ⟨rfl, rfl⟩
    · left
      unfold writeForward
      rw [modifyIdx_oob conns idx _ (Nat.le_of_not_lt hlen)]
  · left
    rw [writeForward_getD_ne conns idx t k hk]

theorem writeReverse_getD_ne (conns : List SimConnectionState) (idx v : Nat)
    (t : TimedMetadataPhit) (k : Nat) (h : idx ≠ k) :
    (writeReverse conns idx v t).getD k default = conns.getD k default :=
  getD_modifyIdx_ne conns idx k _ default h

theorem writeReverse_forward_unchanged (conns : List SimConnectionState)
    (idx v : Nat) (t : TimedMetadataPhit) (k : Nat) :
    ((writeReverse conns idx v t).getD k default).forward_channels =
      (conns.getD k default).forward_channels := by
  by_cases hk : idx = k
  · subst hk
    by_cases hlen : idx < conns.length
    · unfold writeReverse
      rw [getD_modifyIdx_self conns idx _ default hlen]
      split <;> rfl
    · unfold writeReverse
      rw [modifyIdx_oob conns idx _ (Nat.le_of_not_lt hlen)]
  · rw [writeReverse_getD_ne conns idx v t k hk]

theorem writeReverse_channel (conns : List SimConnectionState) (idx v : Nat)
    (t : TimedMetadataPhit) (w : Nat) :
    ((writeReverse conns idx v t).getD idx default).reverse_channels.getD w
        default =
      (conns.getD idx default).reverse_channels.getD w default ∨
    ((writeReverse conns idx v t).getD idx
        default).reverse_channels.getD w default = t := by
  by_cases hlen : idx < conns.length
  · unfold writeReverse
    rw [getD_modifyIdx_self conns idx _ default hlen]
    split
    · left
      rfl
    by_cases hw : v = w
    · subst hw
      by_cases hv : v < (conns.getD idx default).reverse_channels.length
      · right
        exact getD_setIdx_self _ v t default hv
      · left
        unfold setIdx
        rw [List.set_eq_of_length_le (Nat.le_of_not_lt hv)]
    · left
      exact getD_setIdx_ne _ v w t default hw
  · left
    unfold writeReverse
    rw [modifyIdx_oob conns idx _ (Nat.le_of_not_lt hlen)]

end XlsNoc

namespace XlsNoc

theorem srcTryF_conns (s : SimNetworkInterfaceSrc)
    (conns : List SimConnectionState) (cyc : Int)
    (hw : s.sink_connection_index_ = 0) :
    ∃ t : TimedDataPhit, t.cycle = cyc ∧
      (s.tryForwardPropagation conns cyc).2.1 = writeForward conns 0 t ∧
      (s.tryForwardPropagation conns cyc).2.2 = true := by
  unfold SimNetworkInterfaceSrc.tryForwardPropagation
  dsimp only
  rcases (List.range s.data_to_send_.length).find?
      (s.eligibleVc (foldCreditUpdates s.credit_ s.credit_update_ cyc) cyc)
    with _ | v
  · exact ⟨⟨cyc, invalidPhit⟩, rfl, by rw [hw], rfl⟩
  · exact ⟨⟨cyc, ((s.data_to_send_.getD v []).headD default).phit⟩, rfl,
      by rw [hw], rfl⟩

theorem srcTryR_conns (s : SimNetworkInterfaceSrc)
    (conns : List SimConnectionState) (cyc : Int) :
    (s.tryReversePropagation conns cyc).2.1 = conns := by
  unfold SimNetworkInterfaceSrc.tryReversePropagation
  dsimp only
  split <;> rfl

theorem linkTryF_conns (l : SimLink) (conns : List SimConnectionState)
    (cyc : Int) (hw : l.sink_connection_index_ = 1) :
    ((l.tryForwardPropagation conns cyc).2.1 = conns ∧
      (l.tryForwardPropagation conns cyc).2.2 = false) ∨
    (∃ t : TimedDataPhit, t.cycle = cyc ∧
      (l.tryForwardPropagation conns cyc).2.1 = writeForward conns 1 t ∧
      (l.tryForwardPropagation conns cyc).2.2 = true) := by
  unfold SimLink.tryForwardPropagation
  dsimp only
  split
  · right
    exact ⟨⟨cyc, (linkPipelineStep l.forward_pipeline_stages_
      l.forward_data_stages_ (conns.getD l.src_connection_index_
        default).forward_channels.phit).2⟩, rfl, by rw [hw], rfl⟩
  · left
    exact ⟨rfl, rfl⟩

theorem sinkTryF_conns (s : SimNetworkInterfaceSink)
    (conns : List SimConnectionState) (cyc : Int) :
    (s.tryForwardPropagation conns cyc).2.1 = conns := by
  unfold SimNetworkInterfaceSink.tryForwardPropagation
  dsimp only
  split
  · split <;> rfl
  · rfl

end XlsNoc

namespace XlsNoc

theorem foldl_writeReverse_effects (idx : Nat) (cyc : Int)
    (g : Nat → MetadataPhit) :
    ∀ (ks : List Nat) (cs : List SimConnectionState),
      (∀ k, k ≠ idx →
        ((ks.foldl (fun cs2 v => writeReverse cs2 idx v ⟨cyc, g v⟩)
          cs).getD k default) = cs.getD k default) ∧
      (∀ k, (((ks.foldl (fun cs2 v => writeReverse cs2 idx v ⟨cyc, g v⟩)
          cs).getD k default)).forward_channels =
        (cs.getD k default).forward_channels) ∧
      (∀ w, ((ks.foldl (fun cs2 v => writeReverse cs2 idx v ⟨cyc, g v⟩)
            cs).getD idx default).reverse_channels.getD w default =
          (cs.getD idx default).reverse_channels.getD w default ∨
        (((ks.foldl (fun cs2 v => writeReverse cs2 idx v ⟨cyc, g v⟩)
            cs).getD idx default).reverse_channels.getD w
          default).cycle = cyc) := by
  intro ks
  induction ks with
  | nil => exact fun cs => ⟨fun k _ => rfl, fun k => rfl, fun w => Or.inl rfl⟩
  | cons k0 rest ih =>
    intro cs
    rcases ih (writeReverse cs idx k0 ⟨cyc, g k0⟩) with ⟨ih1, ih2, ih3⟩
    refine ⟨?_, ?_, ?_⟩
    · intro k hk
      rw [List.foldl_cons, ih1 k hk, writeReverse_getD_ne cs idx k0 _ k
        (fun hc => hk hc.symm)]
    · intro k
      rw [List.foldl_cons, ih2 k, writeReverse_forward_unchanged]
    · intro w
      rw [List.foldl_cons]
      rcases ih3 w with h | h
      · rcases writeReverse_channel cs idx k0 ⟨cyc, g k0⟩ w with h2 | h2
        · exact Or.inl (by rw [h, h2])
        · exact Or.inr (by rw [h, h2])
      · exact Or.inr h

theorem linkTryR_conns (l : SimLink) (conns : List SimConnectionState)
    (cyc : Int) (hw : l.src_connection_index_ = 0) :
    ((l.tryReversePropagation conns cyc).2.1 = conns ∧
      (l.tryReversePropagation conns cyc).2.2 = false) ∨
    ((l.tryReversePropagation conns cyc).2.2 = true ∧
      (∀ k, k ≠ 0 → ((l.tryReversePropagation conns cyc).2.1.getD k default)
        = conns.getD k default) ∧
      (∀ k, (((l.tryReversePropagation conns cyc).2.1.getD k
          default)).forward_channels = (conns.getD k
          default).forward_channels) ∧
      (∀ w, (((l.tryReversePropagation conns cyc).2.1.getD 0
            default)).reverse_channels.getD w default =
          (conns.getD 0 default).reverse_channels.getD w default ∨
        ((((l.tryReversePropagation conns cyc).2.1.getD 0
            default)).reverse_channels.getD w default).cycle = cyc)) := by
  unfold SimLink.tryReversePropagation
  dsimp only
  split
  · right
    rw [hw]
    rcases foldl_writeReverse_effects 0 cyc
        (fun v => (((List.range l.reverse_credit_stages_.length).map (fun v =>
          linkCreditPipelineStep l.reverse_pipeline_stages_
            (l.reverse_credit_stages_.getD v [])
            ((conns.getD l.sink_connection_index_
              default).reverse_channels.getD v default).phit)).getD v
          ([], invalidMetadataPhit)).2)
        (List.range l.reverse_credit_stages_.length) conns with ⟨e1, e2, e3⟩
    exact ⟨rfl, e1, e2, e3⟩
  · left
    exact ⟨rfl, rfl⟩

end XlsNoc

namespace XlsNoc

theorem linkTryF_keeps_indices (l : SimLink)
    (conns : List SimConnectionState) (cyc : Int) :
    (l.tryForwardPropagation conns cyc).1.src_connection_index_ =
        l.src_connection_index_ ∧
    (l.tryForwardPropagation conns cyc).1.sink_connection_index_ =
        l.sink_connection_index_ := by
  unfold SimLink.tryForwardPropagation
  dsimp only
  split <;> exact ⟨rfl, rfl⟩

theorem tick_eq_proj {σ : Type}
    (tryF tryR : SimNetworkComponentBase → σ → List SimConnectionState →
      Int → σ × List SimConnectionState × Bool)
    (b : SimNetworkComponentBase) (st : σ) (conns : List SimConnectionState)
    (cyc : Int) :
    SimNetworkComponentBase.tick tryF tryR b st conns cyc =
      (let fwd := if b.forward_propagated_cycle_ = cyc then (b, st, conns)
        else (if (tryF b st conns cyc).2.2 then
            { b with forward_propagated_cycle_ := cyc } else b,
          (tryF b st conns cyc).1, (tryF b st conns cyc).2.1);
      let rev := if fwd.1.reverse_propagated_cycle_ = cyc then fwd
        else (if (tryR fwd.1 fwd.2.1 fwd.2.2 cyc).2.2 then
            { fwd.1 with reverse_propagated_cycle_ := cyc } else fwd.1,
          (tryR fwd.1 fwd.2.1 fwd.2.2 cyc).1,
          (tryR fwd.1 fwd.2.1 fwd.2.2 cyc).2.1);
      (rev.1, rev.2.1, rev.2.2,
        decide (rev.1.forward_propagated_cycle_ = cyc) &&
        decide (rev.1.reverse_propagated_cycle_ = cyc))) := rfl

end XlsNoc

namespace XlsNoc

theorem compTick_conns (c : SimComponent) (conns : List SimConnectionState)
    (cyc : Int) :
    (SimComponent.Tick c conns cyc).2.1 =
      (SimNetworkComponentBase.tick SimComponentKind.tryForward
        SimComponentKind.tryReverse c.base c.kind conns cyc).2.2.1 := rfl

theorem compTick_base (c : SimComponent) (conns : List SimConnectionState)
    (cyc : Int) :
    (SimComponent.Tick c conns cyc).1.base =
      (SimNetworkComponentBase.tick SimComponentKind.tryForward
        SimComponentKind.tryReverse c.base c.kind conns cyc).1 := rfl

theorem dispF_src (b : SimNetworkComponentBase) (s : SimNetworkInterfaceSrc)
    (conns : List SimConnectionState) (cyc : Int) :
    SimComponentKind.tryForward b (SimComponentKind.niSrc s) conns cyc =
      (SimComponentKind.niSrc (s.tryForwardPropagation conns cyc).1,
       (s.tryForwardPropagation conns cyc).2.1,
       (s.tryForwardPropagation conns cyc).2.2) := rfl

theorem dispR_src (b : SimNetworkComponentBase) (s : SimNetworkInterfaceSrc)
    (conns : List SimConnectionState) (cyc : Int) :
    SimComponentKind.tryReverse b (SimComponentKind.niSrc s) conns cyc =
      (SimComponentKind.niSrc (s.tryReversePropagation conns cyc).1,
       (s.tryReversePropagation conns cyc).2.1,
       (s.tryReversePropagation conns cyc).2.2) := rfl

theorem dispF_link (b : SimNetworkComponentBase) (l : SimLink)
    (conns : List SimConnectionState) (cyc : Int) :
    SimComponentKind.tryForward b (SimComponentKind.link l) conns cyc =
      (SimComponentKind.link (l.tryForwardPropagation conns cyc).1,
       (l.tryForwardPropagation conns cyc).2.1,
       (l.tryForwardPropagation conns cyc).2.2) := rfl

theorem dispR_link (b : SimNetworkComponentBase) (l : SimLink)
    (conns : List SimConnectionState) (cyc : Int) :
    SimComponentKind.tryReverse b (SimComponentKind.link l) conns cyc =
      (SimComponentKind.link (l.tryReversePropagation conns cyc).1,
       (l.tryReversePropagation conns cyc).2.1,
       (l.tryReversePropagation conns cyc).2.2) := rfl

theorem dispF_sink (b : SimNetworkComponentBase)
    (s : SimNetworkInterfaceSink) (conns : List SimConnectionState)
    (cyc : Int) :
    SimComponentKind.tryForward b (SimComponentKind.niSink s) conns cyc =
      (SimComponentKind.niSink (s.tryForwardPropagation conns cyc).1,
       (s.tryForwardPropagation conns cyc).2.1,
       (s.tryForwardPropagation conns cyc).2.2) := rfl

theorem dispR_sink (b : SimNetworkComponentBase)
    (s : SimNetworkInterfaceSink) (conns : List SimConnectionState)
    (cyc : Int) :
    SimComponentKind.tryReverse b (SimComponentKind.niSink s) conns cyc =
      (SimComponentKind.niSink s, conns, true) := rfl

theorem srcTick_conns (b : SimNetworkComponentBase)
    (s : SimNetworkInterfaceSrc) (conns : List SimConnectionState)
    (cyc : Int) :
    ((SimComponent.Tick ⟨b, SimComponentKind.niSrc s⟩ conns cyc).2.1 =
      (if b.forward_propagated_cycle_ = cyc then conns
       else (s.tryForwardPropagation conns cyc).2.1)) ∧
    ((SimComponent.Tick ⟨b, SimComponentKind.niSrc s⟩ conns
        cyc).1.base.forward_propagated_cycle_ =
      (if b.forward_propagated_cycle_ = cyc then
        b.forward_propagated_cycle_ else
        (if (s.tryForwardPropagation conns cyc).2.2 then cyc
         else b.forward_propagated_cycle_))) := by
  rw [compTick_conns, compTick_base, tick_eq_proj]
  dsimp only
  by_cases hf : b.forward_propagated_cycle_ = cyc
  · rw [if_pos hf, if_pos hf, if_pos hf]
    by_cases hr : b.reverse_propagated_cycle_ = cyc
    · rw [if_pos hr]
      exact ⟨rfl, rfl⟩
    · rw [if_neg hr]
      rw [dispR_src]
      rw [srcTryR_conns]
      constructor
      · rfl
      · split <;> rfl
  · rw [if_neg hf, if_neg hf, if_neg hf]
    rw [dispF_src]
    by_cases hok : (s.tryForwardPropagation conns cyc).2.2 = true
    · rw [hok]
      simp only [eq_self_iff_true, if_true]
      by_cases hr : b.reverse_propagated_cycle_ = cyc
      · rw [if_pos hr]
        exact ⟨rfl, rfl⟩
      · rw [if_neg hr]
        rw [dispR_src]
        rw [srcTryR_conns]
        constructor
        · rfl
        · split <;> rfl
    · rw [Bool.not_eq_true] at hok
      rw [hok]
      simp only [Bool.false_eq_true, if_false]
      by_cases hr : b.reverse_propagated_cycle_ = cyc
      · rw [if_pos hr]
        exact ⟨rfl, rfl⟩
      · rw [if_neg hr]
        rw [dispR_src]
        rw [srcTryR_conns]
        constructor
        · rfl
        · split <;> rfl

end XlsNoc

namespace XlsNoc

theorem linkTick_conns (b : SimNetworkComponentBase) (l : SimLink)
    (conns : List SimConnectionState) (cyc : Int) :
    ((SimComponent.Tick ⟨b, SimComponentKind.link l⟩ conns cyc).2.1 =
      (if b.reverse_propagated_cycle_ = cyc then
        (if b.forward_propagated_cycle_ = cyc then conns
         else (l.tryForwardPropagation conns cyc).2.1)
       else
        (((if b.forward_propagated_cycle_ = cyc then l
           else (l.tryForwardPropagation conns cyc).1).tryReversePropagation
          (if b.forward_propagated_cycle_ = cyc then conns
           else (l.tryForwardPropagation conns cyc).2.1) cyc).2.1))) ∧
    ((SimComponent.Tick ⟨b, SimComponentKind.link l⟩ conns
        cyc).1.base.forward_propagated_cycle_ =
      (if b.forward_propagated_cycle_ = cyc then
        b.forward_propagated_cycle_ else
        (if (l.tryForwardPropagation conns cyc).2.2 then cyc
         else b.forward_propagated_cycle_))) ∧
    ((SimComponent.Tick ⟨b, SimComponentKind.link l⟩ conns
        cyc).1.base.reverse_propagated_cycle_ =
      (if b.reverse_propagated_cycle_ = cyc then
        b.reverse_propagated_cycle_ else
        (if (((if b.forward_propagated_cycle_ = cyc then l
            else (l.tryForwardPropagation conns cyc).1).tryReversePropagation
            (if b.forward_propagated_cycle_ = cyc then conns
             else (l.tryForwardPropagation conns cyc).2.1) cyc).2.2) then cyc
         else b.reverse_propagated_cycle_))) := by
  rw [compTick_conns, compTick_base, tick_eq_proj]
  dsimp only
  simp only [dispF_link, dispR_link]
  refine ⟨?_, ?_, ?_⟩ <;>
    split_ifs <;>
    first
    | rfl
    | trivial

theorem sinkTick_conns (b : SimNetworkComponentBase)
    (k : SimNetworkInterfaceSink) (conns : List SimConnectionState)
    (cyc : Int) :
    (SimComponent.Tick ⟨b, SimComponentKind.niSink k⟩ conns cyc).2.1 =
      conns := by
  rw [compTick_conns, tick_eq_proj]
  dsimp only
  simp only [dispF_sink, dispR_sink]
  split_ifs <;>
    first
    | rfl
    | trivial
    | exact sinkTryF_conns k conns cyc

end XlsNoc

namespace XlsNoc

theorem Tick_three (cyc : Int) (m : List (Nat × Nat))
    (conns : List SimConnectionState) (ca cb cc : SimComponent) :
    ((NocSimulator.mk cyc m conns [ca, cb, cc]).Tick).1.connections_ =
      (cc.Tick ((cb.Tick ((ca.Tick conns cyc).2.1) cyc).2.1) cyc).2.1 ∧
    ((NocSimulator.mk cyc m conns [ca, cb, cc]).Tick).1.components_ =
      [(ca.Tick conns cyc).1,
       (cb.Tick ((ca.Tick conns cyc).2.1) cyc).1,
       (cc.Tick ((cb.Tick ((ca.Tick conns cyc).2.1) cyc).2.1) cyc).1] := by
  simp only [NocSimulator.Tick, List.foldl_cons, List.foldl_nil]
  rcases hA : ca.Tick conns cyc with ⟨ca2, cs1, o1⟩
  dsimp only
  simp

end XlsNoc

namespace XlsNoc

theorem pipeline_write_once
    (bs bl bk : SimNetworkComponentBase) (src : SimNetworkInterfaceSrc)
    (l : SimLink) (snk : SimNetworkInterfaceSink)
    (m : List (Nat × Nat)) (c0 c1 : SimConnectionState) (cyc : Int)
    (hws : src.sink_connection_index_ = 0)
    (hl0 : l.src_connection_index_ = 0)
    (hl1 : l.sink_connection_index_ = 1)
    (h0 : c0.forward_channels.cycle = cyc → bs.forward_propagated_cycle_ = cyc)
    (h1 : c1.forward_channels.cycle = cyc → bl.forward_propagated_cycle_ = cyc)
    (h2 : ∀ v, (c0.reverse_channels.getD v default).cycle = cyc →
      bl.reverse_propagated_cycle_ = cyc) :
    ∀ out : NocSimulator,
      out = (NocSimulator.Tick ⟨cyc, m, [c0, c1],
        [⟨bs, SimComponentKind.niSrc src⟩, ⟨bl, SimComponentKind.link l⟩,
         ⟨bk, SimComponentKind.niSink snk⟩]⟩).1 →
      (c0.forward_channels.cycle = cyc →
        (out.connections_.getD 0 default).forward_channels =
          c0.forward_channels) ∧
      (c1.forward_channels.cycle = cyc →
        (out.connections_.getD 1 default).forward_channels =
          c1.forward_channels) ∧
      (∀ v, (c0.reverse_channels.getD v default).cycle = cyc →
        (out.connections_.getD 0 default).reverse_channels.getD v default =
          c0.reverse_channels.getD v default) ∧
      ((out.connections_.getD 1 default).reverse_channels =
        c1.reverse_channels) ∧
      ((out.connections_.getD 0 default).forward_channels.cycle = cyc →
        (out.components_.getD 0 default).base.forward_propagated_cycle_ =
          cyc) ∧
      ((out.connections_.getD 1 default).forward_channels.cycle = cyc →
        (out.components_.getD 1 default).base.forward_propagated_cycle_ =
          cyc) ∧
      (∀ v, ((out.connections_.getD 0
            default).reverse_channels.getD v default).cycle = cyc →
        (out.components_.getD 1 default).base.reverse_propagated_cycle_ =
          cyc) := by
  intro out hout
  obtain ⟨hT3c, hT3k⟩ := Tick_three cyc m [c0, c1]
    ⟨bs, SimComponentKind.niSrc src⟩ ⟨bl, SimComponentKind.link l⟩
    ⟨bk, SimComponentKind.niSink snk⟩
  obtain ⟨t, ht, hsF, hsOk⟩ := srcTryF_conns src [c0, c1] cyc hws
  obtain ⟨hsC, hsM⟩ := srcTick_conns bs src [c0, c1] cyc
  obtain ⟨hlC, hlMf, hlMr⟩ := linkTick_conns bl l
    ((SimComponent.Tick ⟨bs, SimComponentKind.niSrc src⟩ [c0, c1]
      cyc).2.1) cyc
  -- names for the intermediate connection stores
  set cs1 := (SimComponent.Tick ⟨bs, SimComponentKind.niSrc src⟩ [c0, c1]
    cyc).2.1 with hcs1def
  set cs2 := (SimComponent.Tick ⟨bl, SimComponentKind.link l⟩ cs1
    cyc).2.1 with hcs2def
  have houtc : out.connections_ = cs2 := by
    rw [hout, hT3c, sinkTick_conns]
  have houtk : out.components_ =
      [(SimComponent.Tick ⟨bs, SimComponentKind.niSrc src⟩ [c0, c1] cyc).1,
       (SimComponent.Tick ⟨bl, SimComponentKind.link l⟩ cs1 cyc).1,
       (SimComponent.Tick ⟨bk, SimComponentKind.niSink snk⟩ cs2 cyc).1] := by
    rw [hout, hT3k]
  -- facts about the source step
  have f1 : cs1.getD 1 default = c1 := by
    rw [hsC]
    split
    · rfl
    · rw [hsF, writeForward_getD_ne _ 0 _ 1 (by omega)]
      rfl
  have f2 : (cs1.getD 0 default).reverse_channels = c0.reverse_channels := by
    rw [hsC]
    split
    · rfl
    · rw [hsF]
      rw [writeForward_reverse_unchanged]
      rfl
  have f3 : c0.forward_channels.cycle = cyc → cs1 = [c0, c1] := by
    intro hc
    rw [hsC, if_pos (h0 hc)]
  have f4 : (SimComponent.Tick ⟨bs, SimComponentKind.niSrc src⟩ [c0, c1]
      cyc).1.base.forward_propagated_cycle_ = cyc := by
    rw [hsM]
    split
    · assumption
    · rfl
  -- facts about the link step
  have gl1src : (if bl.forward_propagated_cycle_ = cyc then l
      else (l.tryForwardPropagation cs1 cyc).1).src_connection_index_ =
      0 := by
    split
    · exact hl0
    · rw [(linkTryF_keeps_indices l cs1 cyc).1, hl0]
  have gmidf0 : ((if bl.forward_propagated_cycle_ = cyc then cs1
      else (l.tryForwardPropagation cs1 cyc).2.1).getD 0
        default).forward_channels = (cs1.getD 0 default).forward_channels := by
    split
    · rfl
    · rcases linkTryF_conns l cs1 cyc hl1 with ⟨he, _⟩ | ⟨t2, _, he, _⟩
      · rw [he]
      · rw [he, writeForward_getD_ne _ 1 _ 0 (by omega)]
  have gmidr0 : ((if bl.forward_propagated_cycle_ = cyc then cs1
      else (l.tryForwardPropagation cs1 cyc).2.1).getD 0
        default).reverse_channels = (cs1.getD 0 default).reverse_channels := by
    split
    · rfl
    · rcases linkTryF_conns l cs1 cyc hl1 with ⟨he, _⟩ | ⟨t2, _, he, _⟩
      · rw [he]
      · rw [he, writeForward_reverse_unchanged]
  have gmidr1 : ((if bl.forward_propagated_cycle_ = cyc then cs1
      else (l.tryForwardPropagation cs1 cyc).2.1).getD 1
        default).reverse_channels = (cs1.getD 1 default).reverse_channels := by
    split
    · rfl
    · rcases linkTryF_conns l cs1 cyc hl1 with ⟨he, _⟩ | ⟨t2, _, he, _⟩
      · rw [he]
      · rw [he, writeForward_reverse_unchanged]
  have gmidf1 : ((if bl.forward_propagated_cycle_ = cyc then cs1
      else (l.tryForwardPropagation cs1 cyc).2.1).getD 1
        default).forward_channels = (cs1.getD 1 default).forward_channels ∨
      (((if bl.forward_propagated_cycle_ = cyc then cs1
        else (l.tryForwardPropagation cs1 cyc).2.1).getD 1
          default).forward_channels.cycle = cyc ∧
        (bl.forward_propagated_cycle_ = cyc ∨
          (l.tryForwardPropagation cs1 cyc).2.2 = true)) := by
    split
    · left; rfl
    · rcases linkTryF_conns l cs1 cyc hl1 with ⟨he, _⟩ | ⟨t2, ht2, he, hok2⟩
      · left; rw [he]
      · rcases writeForward_forward cs1 1 t2 1 with hc | ⟨_, hc⟩
        · left
          rw [he, hc]
        · right
          rw [he, hc, ht2]
          exact ⟨rfl, Or.inr hok2⟩
  set mid := (if bl.forward_propagated_cycle_ = cyc then cs1
    else (l.tryForwardPropagation cs1 cyc).2.1) with hmiddef
  set l1 := (if bl.forward_propagated_cycle_ = cyc then l
    else (l.tryForwardPropagation cs1 cyc).1) with hl1vdef
  have grev := linkTryR_conns l1 mid cyc gl1src
  have g1f : (cs2.getD 1 default).forward_channels =
      (mid.getD 1 default).forward_channels := by
    rw [hlC]
    split
    · rfl
    · rcases grev with ⟨heq, _⟩ | ⟨_, _, hfwd, _⟩
      · rw [heq]
      · exact hfwd 1
  have g1r : (cs2.getD 1 default).reverse_channels =
      c1.reverse_channels := by
    have hm : (mid.getD 1 default).reverse_channels =
        c1.reverse_channels := by
      rw [gmidr1, f1]
    rw [hlC]
    split
    · exact hm
    · rcases grev with ⟨heq, _⟩ | ⟨_, hframe, _, _⟩
      · rw [heq]; exact hm
      · rw [hframe 1 (by omega)]; exact hm
  have g0f : (cs2.getD 0 default).forward_channels =
      (cs1.getD 0 default).forward_channels := by
    rw [hlC]
    split
    · exact gmidf0
    · rcases grev with ⟨heq, _⟩ | ⟨_, _, hfwd, _⟩
      · rw [heq]; exact gmidf0
      · rw [hfwd 0]; exact gmidf0
  have g0r : ∀ v, (c0.reverse_channels.getD v default).cycle = cyc →
      (cs2.getD 0 default).reverse_channels.getD v default =
        c0.reverse_channels.getD v default := by
    intro v hv
    rw [hlC, if_pos (h2 v hv), gmidr0, f2]
  refine ⟨?_, ?_, ?_, ?_, ?_, ?_, ?_⟩
  · intro hc
    rw [houtc, g0f, f3 hc]
    rfl
  · intro hc
    have hmid1 : (mid.getD 1 default).forward_channels =
        c1.forward_channels := by
      rw [hmiddef, if_pos (h1 hc), f1]
    rw [houtc, g1f, hmid1]
  · intro v hv
    rw [houtc]
    exact g0r v hv
  · rw [houtc]
    exact g1r
  · intro _
    rw [houtk]
    exact f4
  · intro hc
    rw [houtc, g1f] at hc
    rw [houtk]
    show (SimComponent.Tick ⟨bl, SimComponentKind.link l⟩ cs1
      cyc).1.base.forward_propagated_cycle_ = cyc
    rw [hlMf]
    rcases gmidf1 with hg | ⟨hst, hcase⟩
    · have hcc : c1.forward_channels.cycle = cyc := by
        rw [hg, f1] at hc
        exact hc
      rw [if_pos (h1 hcc)]
      exact h1 hcc
    · rcases hcase with hbf | hok
      · rw [if_pos hbf]
        exact hbf
      · by_cases hbf : bl.forward_propagated_cycle_ = cyc
        · rw [if_pos hbf]
          exact hbf
        · rw [if_neg hbf, if_pos hok]
  · intro v hv
    rw [houtc] at hv
    rw [houtk]
    show (SimComponent.Tick ⟨bl, SimComponentKind.link l⟩ cs1
      cyc).1.base.reverse_propagated_cycle_ = cyc
    rw [hlMr]
    by_cases hbr : bl.reverse_propagated_cycle_ = cyc
    · rw [if_pos hbr]
      exact hbr
    · rw [if_neg hbr]
      have hcs2e : cs2 = (l1.tryReversePropagation mid cyc).2.1 := by
        rw [hlC, if_neg hbr]
      rcases grev with ⟨heq, _⟩ | ⟨hok, _⟩
      · exfalso
        apply hbr
        apply h2 v
        rw [hcs2e, heq, gmidr0, f2] at hv
        exact hv
      · rw [if_pos hok]

end XlsNoc

namespace XlsNoc

theorem timedDataPhit_eq (a b : TimedDataPhit) (h1 : a.cycle = b.cycle)
    (h2 : a.phit = b.phit) : a = b := by
  cases a
  cases b
  cases h1
  cases h2
  rfl

theorem timedMetadataPhit_eq (a b : TimedMetadataPhit)
    (h1 : a.cycle = b.cycle) (h2 : a.phit = b.phit) : a = b := by
  cases a
  cases b
  cases h1
  cases h2
  rfl

theorem writeForward_preserves_stamped (conns : List SimConnectionState)
    (idx : Nat) (t : TimedDataPhit) (k : Nat) (cyc : Int)
    (h1 : t.cycle = cyc)
    (h2 : (conns.getD k default).forward_channels.cycle = cyc) :
    ((writeForward conns idx t).getD k default).forward_channels =
      (conns.getD k default).forward_channels := by
  by_cases hk : idx = k
  · subst hk
    by_cases hlen : idx < conns.length
    · unfold writeForward
      rw [getD_modifyIdx_self conns idx _ default hlen]
      split
      · rfl
      · next h =>
        push_neg at h
        have hceq : (conns.getD idx default).forward_channels.cycle =
            t.cycle := by rw [h2, h1]
        exact (timedDataPhit_eq _ _ hceq.symm (h hceq).symm)
    · unfold writeForward
      rw [modifyIdx_oob conns idx _ (Nat.le_of_not_lt hlen)]
  · rw [writeForward_getD_ne conns idx t k hk]

theorem writeReverse_preserves_stamped (conns : List SimConnectionState)
    (idx v : Nat) (t : TimedMetadataPhit) (k w : Nat) (cyc : Int)
    (h1 : t.cycle = cyc)
    (h2 : ((conns.getD k default).reverse_channels.getD w default).cycle
      = cyc) :
    ((writeReverse conns idx v t).getD k
        default).reverse_channels.getD w default =
      (conns.getD k default).reverse_channels.getD w default := by
  by_cases hk : idx = k
  · subst hk
    by_cases hlen : idx < conns.length
    · unfold writeReverse
      rw [getD_modifyIdx_self conns idx _ default hlen]
      split
      · rfl
      · next h =>
        push_neg at h
        by_cases hw : v = w
        · subst hw
          by_cases hv : v <
              (conns.getD idx default).reverse_channels.length
          · rw [show ({ conns.getD idx default with
                reverse_channels :=
                  setIdx (conns.getD idx default).reverse_channels v t
                  } : SimConnectionState).reverse_channels =
                setIdx (conns.getD idx default).reverse_channels v t
              from rfl]
            rw [getD_setIdx_self _ v t default hv]
            have hceq :
                ((conns.getD idx default).reverse_channels.getD v
                  default).cycle = t.cycle := by rw [h2, h1]
            exact timedMetadataPhit_eq _ _ hceq.symm (h hceq).symm
          · rw [show ({ conns.getD idx default with
                reverse_channels :=
                  setIdx (conns.getD idx default).reverse_channels v t
                  } : SimConnectionState).reverse_channels =
                setIdx (conns.getD idx default).reverse_channels v t
              from rfl]
            unfold setIdx
            rw [List.set_eq_of_length_le (Nat.le_of_not_lt hv)]
        · rw [show ({ conns.getD idx default with
              reverse_channels :=
                setIdx (conns.getD idx default).reverse_channels v t
                } : SimConnectionState).reverse_channels =
              setIdx (conns.getD idx default).reverse_channels v t
            from rfl]
          exact getD_setIdx_ne _ v w t default hw
    · unfold writeReverse
      rw [modifyIdx_oob conns idx _ (Nat.le_of_not_lt hlen)]
  · rw [writeReverse_getD_ne conns idx v t k hk]

end XlsNoc

namespace XlsNoc

theorem foldl_writeForward_preserves {α : Type} (cyc : Int)
    (idx : α → Nat) (val : α → DataPhit) :
    ∀ (L : List α) (conns : List SimConnectionState) (k : Nat),
      (((L.foldl (fun cs a => writeForward cs (idx a) ⟨cyc, val a⟩)
          conns).getD k default).reverse_channels =
        (conns.getD k default).reverse_channels) ∧
      ((conns.getD k default).forward_channels.cycle = cyc →
        ((L.foldl (fun cs a => writeForward cs (idx a) ⟨cyc, val a⟩)
            conns).getD k default).forward_channels =
          (conns.getD k default).forward_channels) := by
  intro L
  induction L with
  | nil => exact fun conns k => ⟨rfl, fun _ => rfl⟩
  | cons a rest ih =>
    intro conns k
    rcases ih (writeForward conns (idx a) ⟨cyc, val a⟩) k with ⟨ih1, ih2⟩
    constructor
    · rw [List.foldl_cons, ih1, writeForward_reverse_unchanged]
    · intro hst
      have hpres := writeForward_preserves_stamped conns (idx a)
        ⟨cyc, val a⟩ k cyc rfl hst
      have hst2 : ((writeForward conns (idx a) ⟨cyc, val a⟩).getD k
          default).forward_channels.cycle = cyc := by
        rw [hpres]
        exact hst
      rw [List.foldl_cons, ih2 hst2, hpres]

theorem foldl_writeReverse_preserves {α : Type} (cyc : Int)
    (idx vcf : α → Nat) (val : α → MetadataPhit) :
    ∀ (L : List α) (conns : List SimConnectionState) (k : Nat),
      (((L.foldl (fun cs a => writeReverse cs (idx a) (vcf a)
            ⟨cyc, val a⟩) conns).getD k default).forward_channels =
        (conns.getD k default).forward_channels) ∧
      (∀ w,
        ((conns.getD k default).reverse_channels.getD w default).cycle =
          cyc →
        ((L.foldl (fun cs a => writeReverse cs (idx a) (vcf a)
              ⟨cyc, val a⟩) conns).getD k
            default).reverse_channels.getD w default =
          (conns.getD k default).reverse_channels.getD w default) := by
  intro L
  induction L with
  | nil => exact fun conns k => ⟨rfl, fun _ _ => rfl⟩
  | cons a rest ih =>
    intro conns k
    rcases ih (writeReverse conns (idx a) (vcf a) ⟨cyc, val a⟩) k with
      ⟨ih1, ih2⟩
    constructor
    · rw [List.foldl_cons, ih1, writeReverse_forward_unchanged]
    · intro w hst
      have hpres := writeReverse_preserves_stamped conns (idx a) (vcf a)
        ⟨cyc, val a⟩ k w cyc rfl hst
      have hst2 : (((writeReverse conns (idx a) (vcf a)
          ⟨cyc, val a⟩).getD k default).reverse_channels.getD w
            default).cycle = cyc := by
        rw [hpres]
        exact hst
      rw [List.foldl_cons, ih2 w hst2, hpres]

end XlsNoc

namespace XlsNoc

theorem srcTryF_shape (s : SimNetworkInterfaceSrc)
    (conns : List SimConnectionState) (cyc : Int) :
    ∃ p : DataPhit, (s.tryForwardPropagation conns cyc).2.1 =
      writeForward conns s.sink_connection_index_ ⟨cyc, p⟩ := by
  unfold SimNetworkInterfaceSrc.tryForwardPropagation
  dsimp only
  rcases (List.range s.data_to_send_.length).find?
      (s.eligibleVc (foldCreditUpdates s.credit_ s.credit_update_ cyc) cyc)
    with _ | v
  · exact ⟨invalidPhit, rfl⟩
  · exact ⟨((s.data_to_send_.getD v []).headD default).phit, rfl⟩

theorem linkTryF_shape (l : SimLink) (conns : List SimConnectionState)
    (cyc : Int) :
    (l.tryForwardPropagation conns cyc).2.1 = conns ∨
    ∃ p : DataPhit, (l.tryForwardPropagation conns cyc).2.1 =
      writeForward conns l.sink_connection_index_ ⟨cyc, p⟩ := by
  unfold SimLink.tryForwardPropagation
  dsimp only
  split
  · right
    exact ⟨_, rfl⟩
  · left
    rfl

theorem linkTryR_shape (l : SimLink) (conns : List SimConnectionState)
    (cyc : Int) :
    (l.tryReversePropagation conns cyc).2.1 = conns ∨
    ∃ (n id2 : Nat) (g : Nat → MetadataPhit),
      (l.tryReversePropagation conns cyc).2.1 =
        (List.range n).foldl
          (fun cs v => writeReverse cs id2 v ⟨cyc, g v⟩) conns := by
  unfold SimLink.tryReversePropagation
  dsimp only
  split
  · right
    exact ⟨l.reverse_credit_stages_.length, l.src_connection_index_,
      _, rfl⟩
  · left
    rfl

theorem rtrTryF_shape (r : SimInputBufferedVCRouter)
    (conns : List SimConnectionState) (cyc : Int) :
    (r.tryForwardPropagation conns cyc).2.1 = conns ∨
    ∃ (n st : Nat) (f : Nat → DataPhit),
      (r.tryForwardPropagation conns cyc).2.1 =
        (List.range n).foldl
          (fun cs p => writeForward cs (st + p) ⟨cyc, f p⟩) conns := by
  unfold SimInputBufferedVCRouter.tryForwardPropagation
  dsimp only
  split <;> split <;>
    first
      | (right; exact ⟨_, _, _, rfl⟩)
      | (left; rfl)

theorem rtrTryR_shape (b : SimNetworkComponentBase)
    (r : SimInputBufferedVCRouter) (conns : List SimConnectionState)
    (cyc : Int) :
    (SimInputBufferedVCRouter.tryReversePropagation b r conns cyc).2.1 =
      conns ∨
    ∃ (L : List (Nat × Nat)) (st : Nat) (g : Nat × Nat → MetadataPhit),
      (SimInputBufferedVCRouter.tryReversePropagation b r conns
          cyc).2.1 =
        L.foldl
          (fun cs iv => writeReverse cs (st + iv.1) iv.2 ⟨cyc, g iv⟩)
          conns := by
  unfold SimInputBufferedVCRouter.tryReversePropagation
  dsimp only
  split
  · split
    · right
      exact ⟨pairsLex r.input_connection_count_ r.max_vc_,
        r.input_connection_index_start_, _, rfl⟩
    · left
      rfl
  · left
    rfl

end XlsNoc

namespace XlsNoc

theorem dispF_rtr (b : SimNetworkComponentBase)
    (r : SimInputBufferedVCRouter) (conns : List SimConnectionState)
    (cyc : Int) :
    SimComponentKind.tryForward b (SimComponentKind.router r) conns cyc =
      (SimComponentKind.router (r.tryForwardPropagation conns cyc).1,
       (r.tryForwardPropagation conns cyc).2.1,
       (r.tryForwardPropagation conns cyc).2.2) := rfl

theorem dispR_rtr (b : SimNetworkComponentBase)
    (r : SimInputBufferedVCRouter) (conns : List SimConnectionState)
    (cyc : Int) :
    SimComponentKind.tryReverse b (SimComponentKind.router r) conns cyc =
      (SimComponentKind.router
        (SimInputBufferedVCRouter.tryReversePropagation b r conns cyc).1,
       (SimInputBufferedVCRouter.tryReversePropagation b r conns cyc).2.1,
       (SimInputBufferedVCRouter.tryReversePropagation b r conns
         cyc).2.2) := rfl

theorem kindTryF_preserves (b : SimNetworkComponentBase)
    (k : SimComponentKind) (conns : List SimConnectionState) (cyc : Int)
    (j : Nat) :
    (((SimComponentKind.tryForward b k conns cyc).2.1.getD j
        default).reverse_channels =
      (conns.getD j default).reverse_channels) ∧
    ((conns.getD j default).forward_channels.cycle = cyc →
      ((SimComponentKind.tryForward b k conns cyc).2.1.getD j
          default).forward_channels =
        (conns.getD j default).forward_channels) := by
  cases k with
  | link l =>
    have hd : (SimComponentKind.tryForward b (SimComponentKind.link l)
        conns cyc).2.1 = (l.tryForwardPropagation conns cyc).2.1 := by
      rw [dispF_link]
    rw [hd]
    rcases linkTryF_shape l conns cyc with he | ⟨p, he⟩
    · rw [he]
      exact ⟨rfl, fun _ => rfl⟩
    · rw [he]
      exact ⟨writeForward_reverse_unchanged _ _ _ _,
        fun hst => writeForward_preserves_stamped _ _ _ _ cyc rfl hst⟩
  | niSrc s =>
    have hd : (SimComponentKind.tryForward b (SimComponentKind.niSrc s)
        conns cyc).2.1 = (s.tryForwardPropagation conns cyc).2.1 := by
      rw [dispF_src]
    rw [hd]
    rcases srcTryF_shape s conns cyc with ⟨p, he⟩
    rw [he]
    exact ⟨writeForward_reverse_unchanged _ _ _ _,
      fun hst => writeForward_preserves_stamped _ _ _ _ cyc rfl hst⟩
  | niSink s =>
    have hd : (SimComponentKind.tryForward b (SimComponentKind.niSink s)
        conns cyc).2.1 = (s.tryForwardPropagation conns cyc).2.1 := by
      rw [dispF_sink]
    rw [hd, sinkTryF_conns]
    exact ⟨rfl, fun _ => rfl⟩
  | router r =>
    have hd : (SimComponentKind.tryForward b (SimComponentKind.router r)
        conns cyc).2.1 = (r.tryForwardPropagation conns cyc).2.1 := by
      rw [dispF_rtr]
    rw [hd]
    rcases rtrTryF_shape r conns cyc with he | ⟨n, st, f, he⟩
    · rw [he]
      exact ⟨rfl, fun _ => rfl⟩
    · rw [he]
      rcases foldl_writeForward_preserves cyc (fun p => st + p) f
        (List.range n) conns j with ⟨h1, h2⟩
      exact ⟨h1, h2⟩

theorem kindTryR_preserves (b : SimNetworkComponentBase)
    (k : SimComponentKind) (conns : List SimConnectionState) (cyc : Int)
    (j : Nat) :
    (((SimComponentKind.tryReverse b k conns cyc).2.1.getD j
        default).forward_channels =
      (conns.getD j default).forward_channels) ∧
    (∀ w,
      ((conns.getD j default).reverse_channels.getD w default).cycle =
        cyc →
      ((SimComponentKind.tryReverse b k conns cyc).2.1.getD j
          default).reverse_channels.getD w default =
        (conns.getD j default).reverse_channels.getD w default) := by
  cases k with
  | link l =>
    have hd : (SimComponentKind.tryReverse b (SimComponentKind.link l)
        conns cyc).2.1 = (l.tryReversePropagation conns cyc).2.1 := by
      rw [dispR_link]
    rw [hd]
    rcases linkTryR_shape l conns cyc with he | ⟨n, id2, g, he⟩
    · rw [he]
      exact ⟨rfl, fun _ _ => rfl⟩
    · rw [he]
      rcases foldl_writeReverse_preserves cyc (fun _ => id2) (fun v => v)
        g (List.range n) conns j with ⟨h1, h2⟩
      exact ⟨h1, h2⟩
  | niSrc s =>
    have hd : (SimComponentKind.tryReverse b (SimComponentKind.niSrc s)
        conns cyc).2.1 = (s.tryReversePropagation conns cyc).2.1 := by
      rw [dispR_src]
    rw [hd, srcTryR_conns]
    exact ⟨rfl, fun _ _ => rfl⟩
  | niSink s =>
    exact ⟨rfl, fun _ _ => rfl⟩
  | router r =>
    have hd : (SimComponentKind.tryReverse b (SimComponentKind.router r)
        conns cyc).2.1 =
        (SimInputBufferedVCRouter.tryReversePropagation b r conns
          cyc).2.1 := by
      rw [dispR_rtr]
    rw [hd]
    rcases rtrTryR_shape b r conns cyc with he | ⟨L, st, g, he⟩
    · rw [he]
      exact ⟨rfl, fun _ _ => rfl⟩
    · rw [he]
      rcases foldl_writeReverse_preserves cyc (fun iv => st + iv.1)
        (fun iv => iv.2) g L conns j with ⟨h1, h2⟩
      exact ⟨h1, h2⟩

end XlsNoc

namespace XlsNoc

theorem compTick_conns_cases (c : SimComponent)
    (conns : List SimConnectionState) (cyc : Int) :
    ∃ (b1 : SimNetworkComponentBase) (k1 : SimComponentKind)
      (conns1 : List SimConnectionState),
      (conns1 = conns ∨
        conns1 =
          (SimComponentKind.tryForward c.base c.kind conns cyc).2.1) ∧
      ((SimComponent.Tick c conns cyc).2.1 = conns1 ∨
        (SimComponent.Tick c conns cyc).2.1 =
          (SimComponentKind.tryReverse b1 k1 conns1 cyc).2.1) := by
  rw [compTick_conns, tick_eq_proj]
  simp only
  by_cases hf : c.base.forward_propagated_cycle_ = cyc
  · rw [if_pos hf]
    dsimp only
    by_cases hr : c.base.reverse_propagated_cycle_ = cyc
    · rw [if_pos hr]
      exact ⟨c.base, c.kind, conns, Or.inl rfl, Or.inl rfl⟩
    · rw [if_neg hr]
      exact ⟨c.base, c.kind, conns, Or.inl rfl, Or.inr rfl⟩
  · rw [if_neg hf]
    dsimp only
    by_cases hr : (if (SimComponentKind.tryForward c.base c.kind conns
          cyc).2.2 = true then
        { c.base with forward_propagated_cycle_ := cyc }
      else c.base).reverse_propagated_cycle_ = cyc
    · rw [if_pos hr]
      exact ⟨c.base, c.kind,
        (SimComponentKind.tryForward c.base c.kind conns cyc).2.1,
        Or.inr rfl, Or.inl rfl⟩
    · rw [if_neg hr]
      exact ⟨(if (SimComponentKind.tryForward c.base c.kind conns
            cyc).2.2 = true then
          { c.base with forward_propagated_cycle_ := cyc }
        else c.base),
        (SimComponentKind.tryForward c.base c.kind conns cyc).1,
        (SimComponentKind.tryForward c.base c.kind conns cyc).2.1,
        Or.inr rfl, Or.inr rfl⟩

end XlsNoc

namespace XlsNoc

theorem compTick_preserves (c : SimComponent)
    (conns : List SimConnectionState) (cyc : Int) (j : Nat) :
    ((conns.getD j default).forward_channels.cycle = cyc →
      ((SimComponent.Tick c conns cyc).2.1.getD j
          default).forward_channels =
        (conns.getD j default).forward_channels) ∧
    (∀ w,
      ((conns.getD j default).reverse_channels.getD w default).cycle =
        cyc →
      ((SimComponent.Tick c conns cyc).2.1.getD j
          default).reverse_channels.getD w default =
        (conns.getD j default).reverse_channels.getD w default) := by
  rcases compTick_conns_cases c conns cyc with
    ⟨b1, k1, conns1, h1, h2⟩
  have hfwd1 : ∀ hst : (conns.getD j default).forward_channels.cycle =
      cyc, (conns1.getD j default).forward_channels =
        (conns.getD j default).forward_channels := by
    intro hst
    rcases h1 with he | he
    · rw [he]
    · rw [he]
      exact (kindTryF_preserves c.base c.kind conns cyc j).2 hst
  have hrev1 : (conns1.getD j default).reverse_channels =
      (conns.getD j default).reverse_channels := by
    rcases h1 with he | he
    · rw [he]
    · rw [he]
      exact (kindTryF_preserves c.base c.kind conns cyc j).1
  constructor
  · intro hst
    rcases h2 with he | he
    · rw [he]
      exact hfwd1 hst
    · rw [he]
      rw [(kindTryR_preserves b1 k1 conns1 cyc j).1]
      exact hfwd1 hst
  · intro w hst
    have hval : (conns1.getD j default).reverse_channels.getD w default =
        (conns.getD j default).reverse_channels.getD w default := by
      rw [hrev1]
    have hst1 : ((conns1.getD j default).reverse_channels.getD w
        default).cycle = cyc := by
      rw [hval]
      exact hst
    rcases h2 with he | he
    · rw [he]
      exact hval
    · rw [he]
      rw [(kindTryR_preserves b1 k1 conns1 cyc j).2 w hst1]
      exact hval

end XlsNoc

namespace XlsNoc

theorem foldTick_preserves (cyc : Int) :
    ∀ (comps : List SimComponent) (acc : List SimComponent) (flag : Bool)
      (conns : List SimConnectionState) (j : Nat),
      ((conns.getD j default).forward_channels.cycle = cyc →
        ((comps.foldl
            (fun (acc2 : List SimComponent × List SimConnectionState ×
                Bool) c =>
              match SimComponent.Tick c acc2.2.1 cyc with
              | (c', cs, ok) => (acc2.1 ++ [c'], cs, acc2.2.2 && ok))
            (acc, conns, flag)).2.1.getD j default).forward_channels =
          (conns.getD j default).forward_channels) ∧
      (∀ w,
        ((conns.getD j default).reverse_channels.getD w default).cycle =
          cyc →
        ((comps.foldl
            (fun (acc2 : List SimComponent × List SimConnectionState ×
                Bool) c =>
              match SimComponent.Tick c acc2.2.1 cyc with
              | (c', cs, ok) => (acc2.1 ++ [c'], cs, acc2.2.2 && ok))
            (acc, conns, flag)).2.1.getD j
            default).reverse_channels.getD w default =
          (conns.getD j default).reverse_channels.getD w default) := by
  intro comps
  induction comps with
  | nil => exact fun acc flag conns j => ⟨fun _ => rfl, fun _ _ => rfl⟩
  | cons c rest ih =>
    intro acc flag conns j
    rcases ht : SimComponent.Tick c conns cyc with ⟨c2, cs2, ok2⟩
    have hfwd : (conns.getD j default).forward_channels.cycle = cyc →
        (cs2.getD j default).forward_channels =
          (conns.getD j default).forward_channels := by
      intro hst
      have h := (compTick_preserves c conns cyc j).1 hst
      rw [ht] at h
      exact h
    have hrev : ∀ w,
        ((conns.getD j default).reverse_channels.getD w default).cycle =
          cyc →
        (cs2.getD j default).reverse_channels.getD w default =
          (conns.getD j default).reverse_channels.getD w default := by
      intro w hst
      have h := (compTick_preserves c conns cyc j).2 w hst
      rw [ht] at h
      exact h
    have hstep : (c :: rest).foldl
        (fun (acc2 : List SimComponent × List SimConnectionState ×
            Bool) c3 =>
          match SimComponent.Tick c3 acc2.2.1 cyc with
          | (c', cs, ok) => (acc2.1 ++ [c'], cs, acc2.2.2 && ok))
        (acc, conns, flag) =
        rest.foldl
        (fun (acc2 : List SimComponent × List SimConnectionState ×
            Bool) c3 =>
          match SimComponent.Tick c3 acc2.2.1 cyc with
          | (c', cs, ok) => (acc2.1 ++ [c'], cs, acc2.2.2 && ok))
        (acc ++ [c2], cs2, flag && ok2) := by
      rw [List.foldl_cons]
      have : (match SimComponent.Tick c conns cyc with
          | (c', cs, ok) => (acc ++ [c'], cs, flag && ok)) =
          (acc ++ [c2], cs2, flag && ok2) := by
        rw [ht]
      rw [this]
    rw [hstep]
    rcases ih (acc ++ [c2]) (flag && ok2) cs2 j with ⟨ih1, ih2⟩
    constructor
    · intro hst
      have hst2 : (cs2.getD j default).forward_channels.cycle = cyc := by
        rw [hfwd hst]
        exact hst
      rw [ih1 hst2, hfwd hst]
    · intro w hst
      have hst2 : ((cs2.getD j default).reverse_channels.getD w
          default).cycle = cyc := by
        rw [hrev w hst]
        exact hst
      rw [ih2 w hst2, hrev w hst]

theorem simTick_preserves (s : NocSimulator) (j : Nat) :
    ((s.connections_.getD j default).forward_channels.cycle = s.cycle_ →
      ((s.Tick.1.connections_.getD j default).forward_channels =
        (s.connections_.getD j default).forward_channels)) ∧
    (∀ w,
      ((s.connections_.getD j default).reverse_channels.getD w
          default).cycle = s.cycle_ →
      (s.Tick.1.connections_.getD j
          default).reverse_channels.getD w default =
        (s.connections_.getD j default).reverse_channels.getD w
          default) := by
  have hc : s.Tick.1.connections_ =
      (s.components_.foldl
        (fun (acc2 : List SimComponent × List SimConnectionState ×
            Bool) c =>
          match SimComponent.Tick c acc2.2.1 s.cycle_ with
          | (c', cs, ok) => (acc2.1 ++ [c'], cs, acc2.2.2 && ok))
        ([], s.connections_, true)).2.1 := rfl
  rw [hc]
  exact foldTick_preserves s.cycle_ s.components_ [] true
    s.connections_ j

end XlsNoc

namespace XlsNoc

/-- Claim C3: connection channel values are write-once per cycle stamp.
For every simulator state - any topology, any mix of sources, links,
sinks and routers - and every connection: once the connection's forward
channel (or a reverse channel of some virtual channel) holds a value
stamped with the current cycle, a full Tick pass over all components
leaves that value bit-for-bit in place, because every component write is
routed through the protocol-checked write, which refuses to replace a
committed same-cycle value.  Producing a second, different value for the
same cycle is a protocol error reported by the checked write (the
concrete simulator aborts) rather than a silent overwrite; a successful
checked write is exactly the channel update; and the connection-store
write paths writeForward / writeReverse are pointwise exactly the
checked write. -/
theorem connection_write_once_per_cycle :
    (∀ (s : NocSimulator) (j : Nat),
      ((s.connections_.getD j default).forward_channels.cycle =
          s.cycle_ →
        (s.Tick.1.connections_.getD j default).forward_channels =
          (s.connections_.getD j default).forward_channels) ∧
      (∀ w, ((s.connections_.getD j default).reverse_channels.getD w
          default).cycle = s.cycle_ →
        (s.Tick.1.connections_.getD j default).reverse_channels.getD w
            default =
          (s.connections_.getD j default).reverse_channels.getD w
            default)) ∧
    (∀ (c : SimConnectionState) (t : TimedDataPhit),
      (c.forward_channels.cycle = t.cycle ∧
          c.forward_channels.phit ≠ t.phit →
        ∃ e, writeForwardChecked c t = Except.error e) ∧
      (∀ c2, writeForwardChecked c t = Except.ok c2 →
        c2 = { c with forward_channels := t })) ∧
    (∀ (c : SimConnectionState) (v : Nat) (t : TimedMetadataPhit),
      ((c.reverse_channels.getD v default).cycle = t.cycle ∧
          (c.reverse_channels.getD v default).phit ≠ t.phit →
        ∃ e, writeReverseChecked c v t = Except.error e) ∧
      (∀ c2, writeReverseChecked c v t = Except.ok c2 →
        c2 = { c with
          reverse_channels := setIdx c.reverse_channels v t })) ∧
    (∀ (conns : List SimConnectionState) (idx : Nat)
        (t : TimedDataPhit),
      writeForward conns idx t = modifyIdx conns idx (fun c =>
        match writeForwardChecked c t with
        | .ok c2 => c2
        | .error _ => c)) ∧
    (∀ (conns : List SimConnectionState) (idx v : Nat)
        (t : TimedMetadataPhit),
      writeReverse conns idx v t = modifyIdx conns idx (fun c =>
        match writeReverseChecked c v t with
        | .ok c2 => c2
        | .error _ => c)) := by
  refine ⟨fun s j => simTick_preserves s j, ?_, ?_, ?_, ?_⟩
  · intro c t
    constructor
    · intro hp
      unfold writeForwardChecked
      rw [if_pos hp]
      exact ⟨_, rfl⟩
    · intro c2 hok
      unfold writeForwardChecked at hok
      by_cases hp : c.forward_channels.cycle = t.cycle ∧
          c.forward_channels.phit ≠ t.phit
      · rw [if_pos hp] at hok
        simp at hok
      · rw [if_neg hp] at hok
        injection hok with h
        exact h.symm
  · intro c v t
    constructor
    · intro hp
      unfold writeReverseChecked
      rw [if_pos hp]
      exact ⟨_, rfl⟩
    · intro c2 hok
      unfold writeReverseChecked at hok
      by_cases hp : (c.reverse_channels.getD v default).cycle = t.cycle ∧
          (c.reverse_channels.getD v default).phit ≠ t.phit
      · rw [if_pos hp] at hok
        simp at hok
      · rw [if_neg hp] at hok
        injection hok with h
        exact h.symm
  · intro conns idx t
    unfold writeForward writeForwardChecked
    congr 1
    funext c
    by_cases hp : c.forward_channels.cycle = t.cycle ∧
        c.forward_channels.phit ≠ t.phit
    · rw [if_pos hp, if_pos hp]
    · rw [if_neg hp, if_neg hp]
  · intro conns idx v t
    unfold writeReverse writeReverseChecked
    congr 1
    funext c
    by_cases hp : (c.reverse_channels.getD v default).cycle = t.cycle ∧
        (c.reverse_channels.getD v default).phit ≠ t.phit
    · rw [if_pos hp, if_pos hp]
    · rw [if_neg hp, if_neg hp]

/-- The C3 theorem at the concrete cycle-5 scenario whose components have
not yet converged: the source and link run and attempt same-cycle writes
onto already-stamped channels, yet every stamped forward and reverse
value survives the full Tick pass, and a second, different forward value
for cycle 5 is a protocol error. -/
theorem connection_write_once_per_cycle_witness :
    (((NocSimulator.Tick c3Sim0).1.connections_.getD 0
        default).forward_channels =
      (c3Sim0.connections_.getD 0 default).forward_channels) ∧
    (((NocSimulator.Tick c3Sim0).1.connections_.getD 1
        default).forward_channels =
      (c3Sim0.connections_.getD 1 default).forward_channels) ∧
    (((NocSimulator.Tick c3Sim0).1.connections_.getD 0
        default).reverse_channels.getD 0 default =
      (c3Sim0.connections_.getD 0 default).reverse_channels.getD 0
        default) ∧
    (∃ e, writeForwardChecked c3C0 ⟨5, ⟨true, 0, 0, 8⟩⟩ =
      Except.error e) :=
  ⟨(connection_write_once_per_cycle.1 c3Sim0 0).1 (by decide),
   (connection_write_once_per_cycle.1 c3Sim0 1).1 (by decide),
   (connection_write_once_per_cycle.1 c3Sim0 0).2 0 (by decide),
   (connection_write_once_per_cycle.2.1 c3C0 ⟨5, ⟨true, 0, 0, 8⟩⟩).1
     (by decide)⟩

end XlsNoc
